import Mathlib

/-
Verification of the messaging/session runtime specification of this
repository (the kernel protocol core described in spec.md sections 2 to 8).
The implementation package (message codec, kernel connection, future
correlator, session) is not among the checked-in sources; only its test
suites are. The definitions below are therefore modelled from the
specification's words, anchored by the behaviours the repository's own
tests exercise, and the theorems settle the frozen claims against this
model. Asynchronous hook execution is embedded as a sequential event
trace: the specification states that the engine awaits each hook before
invoking the next, so cooperative async collapses to an ordered trace
with an explicit scheduler for the arrival/processing interleaving.
-/

namespace JLServices

/-- Modelled from the spec: the four logical channels multiplexed over one
physical connection (spec section 6). -/
inductive Channel
  | shell
  | iopub
  | stdin
  | control
deriving DecidableEq, Repr

/-- Modelled from the spec: the enumerated kernel status set of spec
section 3. -/
inductive Status
  | unknown
  | starting
  | idle
  | busy
  | restarting
  | reconnecting
  | connected
  | dead
deriving DecidableEq, Repr

/-- Modelled from the spec: recognition of a wire execution-state string as
one of the enumerated status values; any other string is unrecognized. -/
def parseStatus (s : String) : Option Status :=
  if s = "unknown" then some Status.unknown
  else if s = "starting" then some Status.starting
  else if s = "idle" then some Status.idle
  else if s = "busy" then some Status.busy
  else if s = "restarting" then some Status.restarting
  else if s = "reconnecting" then some Status.reconnecting
  else if s = "connected" then some Status.connected
  else if s = "dead" then some Status.dead
  else none

/-- Modelled from the spec: the fixed header shape of spec section 6,
with each required field optional at the wire level so that an absent
field is representable (a JSON object may lack a key). -/
structure RawHeader where
  msg_id : Option String
  msg_type : Option String
  username : Option String
  session : Option String
  version : Option String
  date : Option String
deriving DecidableEq, Repr

/-- Modelled from the spec: a wire message envelope of spec section 3
(header, parent header, channel, JSON content and metadata as key-value
lists). -/
structure RawMessage where
  header : RawHeader
  parent_header : Option RawHeader
  channel : Channel
  content : List (String × String)
  metadata : List (String × String)
deriving DecidableEq, Repr

/-- Modelled from the spec: the protocol version the codec stamps. -/
def protocolVersion : String := "5.2"

/-- Result of validating a message: success, or the MalformedMessageError
failure of spec section 4.1. -/
inductive ValidateResult
  | ok
  | malformedMessageError
deriving DecidableEq, Repr

/-- Modelled from the spec: createMessage of spec section 4.1 stamps a
fresh msg_id, the current session/username, a date and the protocol
version; the caller supplies type, channel, content and metadata. -/
def createMessage (msg_type : String) (channel : Channel)
    (content metadata : List (String × String))
    (msgId session username date : String) : RawMessage :=
  { header :=
      { msg_id := some msgId
        msg_type := some msg_type
        username := some username
        session := some session
        version := some protocolVersion
        date := some date }
    parent_header := none
    channel := channel
    content := content
    metadata := metadata }

/-- Modelled from the spec: validate of spec section 4.1 fails with
MalformedMessageError when a required header field is absent. The
repository's own tests route messages of arbitrary msg_type (such as a
type named foo) through the connection, so validation performs no
per-channel message-type check. -/
def validate (m : RawMessage) : ValidateResult :=
  match m.header.msg_id, m.header.msg_type, m.header.username,
      m.header.session, m.header.version, m.header.date with
  | some _, some _, some _, some _, some _, some _ => ValidateResult.ok
  | _, _, _, _, _, _ => ValidateResult.malformedMessageError

/-- Tampering with a created message: removing the required header field
selected by the index (0 msg_id, 1 msg_type, 2 username, 3 session,
4 version, 5 date). -/
def removeHeaderField (h : RawHeader) (i : Fin 6) : RawHeader :=
  match i with
  | ⟨0, _⟩ => { h with msg_id := none }
  | ⟨1, _⟩ => { h with msg_type := none }
  | ⟨2, _⟩ => { h with username := none }
  | ⟨3, _⟩ => { h with session := none }
  | ⟨4, _⟩ => { h with version := none }
  | ⟨5, _⟩ => { h with date := none }

/-- Tampering at the message level: the header loses one required field. -/
def tamperMessage (m : RawMessage) (i : Fin 6) : RawMessage :=
  { m with header := removeHeaderField m.header i }

/-- Modelled from the spec: the routed form of an inbound or outbound
message as the kernel connection demultiplexes it (spec section 2 flow):
its own id and type, its channel, the parent header's msg_id and session
when the parent header is non-empty, and the content's execution_state
field when present (status messages). -/
structure KMessage where
  msgId : String
  msgType : String
  channel : Channel
  parentMsgId : Option String
  parentSession : Option String
  executionState : Option String
deriving DecidableEq, Repr

/-- Direction tag of the anyMessage signal. -/
inductive Direction
  | send
  | recv
deriving DecidableEq, Repr

/-- Observable events of the connection: signal emissions and handler
invocations, in the order the engine produces them. -/
inductive Event
  | anyMessage (msgId : String) (channel : Channel) (dir : Direction)
  | statusChanged (st : Status)
  | iopubSignal (msgId : String)
  | unhandled (msgId : String)
  | hookRun (hid : Nat) (msgId : String)
  | onIOPub (parent msgId : String)
  | onReply (parent msgId : String)
  | onStdin (parent msgId : String)
  | doneResolved (parent : String)
deriving DecidableEq, Repr

/-- Modelled from the spec: a registered message hook (spec sections 4.3
and 4.4). Its identity `hid` distinguishes registrations; `ret` is the
boolean it resolves with (false halts further hook processing for the
message); `removes` lists the hook identities it removes while it runs
(removal takes effect immediately). A hook returning nothing behaves as
returning true, so `ret` covers that case. -/
structure Hook where
  hid : Nat
  ret : Bool
  removes : List Nat
deriving DecidableEq, Repr

/-- Modelled from the spec: the Future/reply correlator state of spec
section 3: the request id it correlates, its registered hooks in
invocation order (head runs first, most recently registered first),
the independently tracked reply and idle flags, how often its done
promise resolved, whether a shell reply is expected, and disposal. -/
structure FutureState where
  msgId : String
  hooks : List Hook
  gotReply : Bool
  gotIdle : Bool
  doneCount : Nat
  expectReply : Bool
  disposeOnDone : Bool
  isDisposed : Bool
deriving DecidableEq, Repr

/-- A fresh future created at send time. -/
def newFuture (msgId : String) (expectReply disposeOnDone : Bool) : FutureState :=
  { msgId := msgId
    hooks := []
    gotReply := false
    gotIdle := false
    doneCount := 0
    expectReply := expectReply
    disposeOnDone := disposeOnDone
    isDisposed := false }

/-- Registering a hook on a future prepends it: the most recently
registered hook runs first. -/
def FutureState.registerHook (f : FutureState) (h : Hook) : FutureState :=
  { f with hooks := h :: f.hooks }

/-- Modelled from the spec: the kernel connection state of spec
sections 3 and 4.4: the locally generated clientId owning reply routing,
the current status, the future set, and the kernel-level message hooks
keyed by parent message id (head of each key's group runs first). -/
structure KernelState where
  clientId : String
  status : Status
  futures : List FutureState
  kernelHooks : List (String × Hook)
deriving DecidableEq, Repr

/-- Kernel-level message hooks registered for one parent id, in
invocation order. -/
def kernelHooksFor (s : KernelState) (p : String) : List Hook :=
  (s.kernelHooks.filter (fun q => q.1 == p)).map (fun q => q.2)

/-- registerMessageHook at the kernel level prepends for its parent id:
most recently registered runs first. -/
def KernelState.registerKernelHook (s : KernelState) (p : String) (h : Hook) : KernelState :=
  { s with kernelHooks := (p, h) :: s.kernelHooks }

/-- registerMessageHook on the future of a given request id. -/
def KernelState.registerFutureHook (s : KernelState) (p : String) (h : Hook) : KernelState :=
  { s with futures := s.futures.map (fun f => if f.msgId == p then f.registerHook h else f) }

/-- removeMessageHook: the registration with the given identity is removed
from every future hook list and from the kernel-level hooks, effective
immediately. -/
def KernelState.removeMessageHook (s : KernelState) (hid : Nat) : KernelState :=
  { s with
    futures := s.futures.map (fun f => { f with hooks := f.hooks.filter (fun h => !(h.hid == hid)) })
    kernelHooks := s.kernelHooks.filter (fun q => !(q.2.hid == hid)) }

/-- Result of running a hook chain on one message: the invocation events
in order, whether processing continues past the chain, and the hook
identities removed by side effects of the hooks that ran. -/
structure ChainResult where
  events : List Event
  cont : Bool
  removed : List Nat
deriving DecidableEq, Repr

/-- Modelled from the spec: sequential execution of a hook chain on one
message (spec section 4.3): the engine awaits each hook before invoking
the next; a hook that resolves false halts the chain; a removal a hook
performs takes effect immediately, so a hook whose identity is in the
accumulated removed set is skipped, never invoked again. The `removed`
accumulator enters holding the identities removed before this chain ran
and leaves holding all identities removed so far. -/
def runHooksFrom (removed : List Nat) : List Hook → String → ChainResult
  | [], _ => ⟨[], true, removed⟩
  | h :: rest, mid =>
    if removed.contains h.hid then runHooksFrom removed rest mid
    else if h.ret then
      let r := runHooksFrom (removed ++ h.removes) rest mid
      ⟨Event.hookRun h.hid mid :: r.events, r.cont, r.removed⟩
    else
      ⟨[Event.hookRun h.hid mid], false, removed ++ h.removes⟩

/-- Whether a message is an idle-status iopub content. -/
def isIdleStatus (m : KMessage) : Bool :=
  m.msgType == "status" && m.executionState == some "idle"

/-- Modelled from the spec: done resolves once both halves of completion
have been observed (the shell reply, unless none is expected, and the
idle-status iopub message), and resolves at most once (spec section 3
future lifecycle). Resolution disposes the future when it was configured
to dispose on done. -/
def FutureState.checkDone (f : FutureState) : FutureState × List Event :=
  if f.gotIdle && (f.gotReply || !f.expectReply) && f.doneCount == 0 then
    ({ f with
        doneCount := f.doneCount + 1
        isDisposed := f.isDisposed || f.disposeOnDone },
     [Event.doneResolved f.msgId])
  else (f, [])

/-- Replace the future the router matched (the first undisposed future
with the given request id) by its updated state. -/
def replaceFuture : List FutureState → FutureState → List FutureState
  | [], _ => []
  | g :: rest, f =>
    if g.msgId == f.msgId && !g.isDisposed then f :: rest
    else g :: replaceFuture rest f

/-- Modelled from the spec: routing of an inbound message whose parent id
and parent session matched a live future (spec section 4.3): an iopub
message runs the future's hooks, then the kernel-level hooks for the same
parent id, then (unless a hook halted the chain) the onIOPub callback,
and performs delivery accounting regardless of halting; a shell reply
invokes onReply and transitions the reply half of state; a stdin message
invokes onStdin directly with no hook chain; a message on any other
channel is consumed by the matched future without invoking a callback,
so it does not reach unhandledMessage. -/
def handleFutureMsg (s : KernelState) (f : FutureState) (m : KMessage) :
    KernelState × List Event × Bool :=
  match m.channel with
  | Channel.iopub =>
    let r1 := runHooksFrom [] f.hooks m.msgId
    let r2 :=
      if r1.cont then runHooksFrom r1.removed (kernelHooksFor s f.msgId) m.msgId
      else ⟨[], false, r1.removed⟩
    let cbEvents := if r1.cont && r2.cont then [Event.onIOPub f.msgId m.msgId] else []
    let f1 := { f with hooks := f.hooks.filter (fun h => !(r2.removed.contains h.hid)) }
    let f2 := if isIdleStatus m then { f1 with gotIdle := true } else f1
    let fd := f2.checkDone
    ({ s with
        futures := replaceFuture s.futures fd.1
        kernelHooks := s.kernelHooks.filter (fun q => !(r2.removed.contains q.2.hid)) },
     r1.events ++ r2.events ++ cbEvents ++ fd.2, true)
  | Channel.shell =>
    let fd := ({ f with gotReply := true } : FutureState).checkDone
    ({ s with futures := replaceFuture s.futures fd.1 },
     Event.onReply f.msgId m.msgId :: fd.2, true)
  | Channel.stdin =>
    (s, [Event.onStdin f.msgId m.msgId], true)
  | Channel.control =>
    (s, [], true)

/-- Modelled from the spec: a message is accepted as ours by the
connection only when its parent header session equals the clientId
(spec section 3 invariant); the matched future is the live one tracking
the parent msg_id. -/
def matchedFuture (s : KernelState) (m : KMessage) : Option FutureState :=
  match m.parentMsgId, m.parentSession with
  | some p, some sess =>
    if sess == s.clientId then
      s.futures.find? (fun g => g.msgId == p && !g.isDisposed)
    else none
  | _, _ => none

/-- Modelled from the spec: the status update on an inbound status
message (spec sections 3 and 4.4): an execution_state that is not a
recognized status value is ignored; dead is terminal, so no update
happens once dead; statusChanged is emitted only when the status
actually changes. -/
def updateStatus (s : KernelState) (es : Option String) : KernelState × List Event :=
  match es.bind parseStatus with
  | none => (s, [])
  | some st =>
    if s.status == Status.dead || st == s.status then (s, [])
    else ({ s with status := st }, [Event.statusChanged st])

/-- Modelled from the spec: asynchronous handling of one inbound message
(spec section 2 flow and section 4.4): the message is first offered to
the matching live future (requiring the parent session to equal the
clientId); every iopub message then drives the status machine when it is
a status message and is emitted on the iopubMessage signal; a non-iopub
message owned by this client (its parent header session equals the
clientId) that no future handled is an orphaned reply, classified as
unhandledMessage, never thrown (spec section 7); a foreign-session
message that matched nothing is dropped silently — the repository's
tests show unhandledMessage is not emitted for a different client
session. The anyMessage emission is not part of this function: it fires
synchronously at arrival time (see `step`). -/
def handleMessage (s : KernelState) (m : KMessage) : KernelState × List Event :=
  let fr : KernelState × List Event × Bool :=
    match matchedFuture s m with
    | none => (s, [], false)
    | some f => handleFutureMsg s f m
  let su :=
    if m.channel == Channel.iopub && m.msgType == "status" then
      updateStatus fr.1 m.executionState
    else (fr.1, [])
  let sigEvents := if m.channel == Channel.iopub then [Event.iopubSignal m.msgId] else []
  let handled := fr.2.2 || m.channel == Channel.iopub
  let unh :=
    if !handled && m.parentSession == some s.clientId then [Event.unhandled m.msgId]
    else ([] : List Event)
  (su.1, fr.2.1 ++ su.2 ++ sigEvents ++ unh)

/-- Sequential (per-connection FIFO) processing of a list of inbound
messages: each message's asynchronous handling completes before the
next begins (spec section 5). -/
def processMessages (s : KernelState) : List KMessage → KernelState × List Event
  | [] => (s, [])
  | m :: rest =>
    let h := handleMessage s m
    let r := processMessages h.1 rest
    (r.1, h.2 ++ r.2)

/-- The synchronous failure raised when sending while the kernel status
is dead (spec sections 4.2 and 7, KernelIsDeadError). -/
inductive SendError
  | kernelIsDead
deriving DecidableEq, Repr

/-- Modelled from the spec: sendShellMessage (spec section 4.4 and the
transport contract of section 4.2): it fails synchronously with
KernelIsDeadError when the status is dead; otherwise it emits anyMessage
synchronously with direction send and registers a fresh future for the
request. -/
def sendShellMessage (s : KernelState) (msgId : String) (expectReply disposeOnDone : Bool) :
    Except SendError (KernelState × List Event) :=
  if s.status == Status.dead then Except.error SendError.kernelIsDead
  else
    Except.ok
      ({ s with futures := s.futures ++ [newFuture msgId expectReply disposeOnDone] },
       [Event.anyMessage msgId Channel.shell Direction.send])

/-- Modelled from the spec: requestExecute sends an execute_request shell
message expecting a reply, with disposeOnDone defaulting to true; it
fails synchronously with KernelIsDeadError when the status is dead. -/
def requestExecute (s : KernelState) (msgId : String) (disposeOnDone : Bool) :
    Except SendError (KernelState × List Event) :=
  sendShellMessage s msgId true disposeOnDone

/-- Modelled from the spec: requestComplete is a thin wrapper sending a
shell request and resolving with the reply content; its promise rejects
with the same KernelIsDeadError when the kernel is dead. -/
def requestComplete (s : KernelState) (msgId : String) :
    Except SendError (KernelState × List Event) :=
  sendShellMessage s msgId true true

/-- Modelled from the spec: sendInputReply fails with KernelIsDeadError
when dead, otherwise sends on the stdin channel unconditionally with no
correlation (spec section 4.4); anyMessage fires with direction send. -/
def sendInputReply (s : KernelState) (msgId : String) :
    Except SendError (KernelState × List Event) :=
  if s.status == Status.dead then Except.error SendError.kernelIsDead
  else Except.ok (s, [Event.anyMessage msgId Channel.stdin Direction.send])

/-- The interleaving state of the single-threaded cooperative runtime
(spec section 5): wire messages not yet arrived, and arrived messages
queued for asynchronous processing. -/
structure RunState where
  kernel : KernelState
  pending : List KMessage
  queue : List KMessage
deriving DecidableEq, Repr

/-- A scheduler decision: let the next wire message arrive (its
anyMessage signal fires synchronously at that instant), or run the
asynchronous handling of the oldest queued message to completion. -/
inductive SchedChoice
  | arrive
  | process
deriving DecidableEq, Repr

/-- Modelled from the spec: one cooperative step (spec section 5).
Arrival emits anyMessage synchronously, independent of the serialized
asynchronous handling, and enqueues the message; processing dequeues in
FIFO order and runs the full asynchronous handling of one message; a
choice with nothing to do changes nothing. -/
def step (r : RunState) (c : SchedChoice) : RunState × List Event :=
  match c with
  | SchedChoice.arrive =>
    match r.pending with
    | [] => (r, [])
    | m :: rest =>
      ({ r with pending := rest, queue := r.queue ++ [m] },
       [Event.anyMessage m.msgId m.channel Direction.recv])
  | SchedChoice.process =>
    match r.queue with
    | [] => (r, [])
    | m :: rest =>
      let h := handleMessage r.kernel m
      ({ r with kernel := h.1, queue := rest }, h.2)

/-- Run the scheduler over a list of choices, accumulating the trace. -/
def run (r : RunState) (tr : List Event) : List SchedChoice → RunState × List Event
  | [] => (r, tr)
  | c :: cs =>
    let st := step r c
    run st.1 (tr ++ st.2) cs

/-- Modelled from the spec: a Kernel Connection handle as the Session
sees it (spec section 3 identity): server-assigned kernel id and name,
the locally generated per-instance clientId distinguishing connection
objects, and disposal state. -/
structure KernelConn where
  kernelId : String
  name : String
  clientId : Nat
  isDisposed : Bool
deriving DecidableEq, Repr

/-- Modelled from the spec: the Session state of spec section 3: its
server identity (id, path, name, type), the one live Kernel Connection it
is bound to, and the generator of fresh local connection identities
(every connection instance receives a clientId no prior instance had). -/
structure SessionState where
  sid : String
  path : String
  name : String
  stype : String
  kernel : KernelConn
  nextClientId : Nat
deriving DecidableEq, Repr

/-- Observable session events: the new connection reaching ready, and the
kernelChanged emission carrying old and new values. -/
inductive SessionEvent
  | kernelReady (clientId : Nat)
  | kernelChanged (oldK newK : KernelConn)
deriving DecidableEq, Repr

/-- Options to changeKernel: request a new kernel by name, or connect to
an existing kernel by id. -/
inductive ChangeKernelOptions
  | byName (name : String)
  | byId (kid : String)
deriving DecidableEq, Repr

/-- Modelled from the spec: Session.changeKernel (spec section 4.6):
dispose the prior Kernel Connection, request a new kernel from the
control plane (`freshKernelId` is the server-assigned id of a kernel
started by name), construct a new distinct Kernel Connection, and emit
kernelChanged exactly once with the old and new values, after the new
connection reaches ready; the Session's own identity is untouched. -/
def changeKernel (s : SessionState) (opts : ChangeKernelOptions) (freshKernelId : String) :
    SessionState × List SessionEvent :=
  let oldK := { s.kernel with isDisposed := true }
  let newK : KernelConn :=
    match opts with
    | ChangeKernelOptions.byName nm =>
      { kernelId := freshKernelId, name := nm, clientId := s.nextClientId, isDisposed := false }
    | ChangeKernelOptions.byId kid =>
      { kernelId := kid, name := s.kernel.name, clientId := s.nextClientId, isDisposed := false }
  ({ s with kernel := newK, nextClientId := s.nextClientId + 1 },
   [SessionEvent.kernelReady newK.clientId, SessionEvent.kernelChanged oldK newK])

/-- Classifier: an anyMessage emission with direction recv. -/
def isAnyRecv : Event → Bool
  | Event.anyMessage _ _ Direction.recv => true
  | _ => false

/-- Classifier: a handler invocation on a future (message hook call, or
one of the onIOPub, onReply, onStdin callbacks). -/
def isInvocation : Event → Bool
  | Event.hookRun _ _ => true
  | Event.onIOPub _ _ => true
  | Event.onReply _ _ => true
  | Event.onStdin _ _ => true
  | _ => false

/-- Classifier: any event delivered to a future (an invocation or a done
resolution). -/
def isFutureEvent : Event → Bool
  | Event.hookRun _ _ => true
  | Event.onIOPub _ _ => true
  | Event.onReply _ _ => true
  | Event.onStdin _ _ => true
  | Event.doneResolved _ => true
  | _ => false

/-- Classifier: a statusChanged emission. -/
def isStatusEvent : Event → Bool
  | Event.statusChanged _ => true
  | _ => false

/-- Classifier: an unhandledMessage emission. -/
def isUnhandledEvent : Event → Bool
  | Event.unhandled _ => true
  | _ => false

/-- The future object with the given request id (routing aside, disposed
or not): the observer used to state properties of one future. -/
def futureAt (s : KernelState) (p : String) : Option FutureState :=
  s.futures.find? (fun g => g.msgId == p)

/-- Hooks that neither halt nor remove anything: each resolves true with
no side effect (the asynchronous hooks of the ordering tests). -/
def pureHooks (hs : List Hook) : Prop :=
  ∀ h ∈ hs, h.ret = true ∧ h.removes = []

/-- Whether a message is the shell reply correlated to request `p` of
client `cid`. -/
def isReplyFor (p cid : String) (m : KMessage) : Bool :=
  m.channel == Channel.shell && m.parentMsgId == some p && m.parentSession == some cid

/-- Whether a message is an idle-status iopub message correlated to
request `p` of client `cid`. -/
def isIdleFor (p cid : String) (m : KMessage) : Bool :=
  m.channel == Channel.iopub && m.parentMsgId == some p
    && m.parentSession == some cid && isIdleStatus m

/-- The anyMessage emission of an arriving wire message. -/
def recvEvent (m : KMessage) : Event :=
  Event.anyMessage m.msgId m.channel Direction.recv

/-- All hook identities currently registered on the connection, on
futures or at the kernel level. -/
def hookIds (s : KernelState) : List Nat :=
  (s.futures.flatMap (fun f => f.hooks.map (fun h => h.hid)))
    ++ s.kernelHooks.map (fun q => q.2.hid)

/-- The reachability invariant of the cooperative scheduler: after any
choice sequence from the initial configuration (kernel `s0`, wire list
`ms`, empty queue, empty trace), some prefix of length `j` has arrived
and some prefix of length `k ≤ j` has been processed; the anyMessage
part of the trace is exactly the arrived prefix in wire order, and the
rest of the trace is exactly the serialized processing of the processed
prefix. -/
def Reach (s0 : KernelState) (ms : List KMessage) (p : RunState × List Event) : Prop :=
  ∃ j k, k ≤ j ∧ j ≤ ms.length
    ∧ p.1.pending = ms.drop j
    ∧ p.1.queue = (ms.take j).drop k
    ∧ p.1.kernel = (processMessages s0 (ms.take k)).1
    ∧ p.2.filter isAnyRecv = (ms.take j).map recvEvent
    ∧ p.2.filter (fun e => !(isAnyRecv e)) = (processMessages s0 (ms.take k)).2

/-- Concrete fixture: a hook registered first on the witness future. -/
def wHookA : Hook := ⟨1, true, []⟩

/-- Concrete fixture: a hook registered second on the witness future. -/
def wHookB : Hook := ⟨2, true, []⟩

/-- Concrete fixture: a kernel-level hook for the witness request. -/
def wKernelHookA : Hook := ⟨11, true, []⟩

/-- Concrete fixture: a hook resolving false. -/
def wHalting : Hook := ⟨3, false, []⟩

/-- Concrete fixture: the witness future for request id p, keeping the
future alive after done (disposeOnDone false) with two hooks. -/
def wFuture : FutureState :=
  ((newFuture "p" true false).registerHook wHookA).registerHook wHookB

/-- Concrete fixture: a busy connection holding the witness future and
one kernel-level hook. -/
def wState : KernelState :=
  { clientId := "c", status := Status.busy, futures := [wFuture],
    kernelHooks := [("p", wKernelHookA)] }

/-- Concrete fixture: a stream iopub message correlated to the witness
request. -/
def wStream : KMessage := ⟨"m1", "stream", Channel.iopub, some "p", some "c", none⟩

/-- Concrete fixture: the idle-status iopub message correlated to the
witness request. -/
def wIdle : KMessage := ⟨"m2", "status", Channel.iopub, some "p", some "c", some "idle"⟩

/-- Concrete fixture: the shell reply correlated to the witness request. -/
def wReply : KMessage := ⟨"m3", "custom", Channel.shell, some "p", some "c", none⟩

/-- Concrete fixture: a connection whose status is dead. -/
def wDeadState : KernelState :=
  { clientId := "c", status := Status.dead, futures := [], kernelHooks := [] }

/-- Concrete fixture: an idle connection with no pending futures. -/
def wEmptyState : KernelState :=
  { clientId := "c", status := Status.idle, futures := [], kernelHooks := [] }

/-- Concrete fixture: the witness future with a halting hook in front,
its reply half already observed. -/
def wHaltFuture : FutureState :=
  { wFuture with hooks := [wHalting, wHookA], gotReply := true }

/-- Concrete fixture: the witness connection holding the halting
future. -/
def wHaltState : KernelState := { wState with futures := [wHaltFuture] }

/-- Concrete fixture: a status message with an unrecognized
execution_state. -/
def wBadStatus : KMessage := ⟨"mb", "status", Channel.iopub, none, none, some "banana"⟩

/-- Concrete fixture: a busy-status message. -/
def wBusyStatus : KMessage := ⟨"mc", "status", Channel.iopub, none, none, some "busy"⟩

/-- Concrete fixture: an iopub message whose parent session is another
client. -/
def wForeignIopub : KMessage := ⟨"mf", "status", Channel.iopub, some "x", some "w", some "idle"⟩

/-- Concrete fixture: a shell message whose parent session is another
client (the wrong-session message of the repository's unhandledMessage
test). -/
def wForeignShell : KMessage := ⟨"ms", "foo", Channel.shell, some "x", some "w", none⟩

/-- Concrete fixture: a session bound to an initial kernel connection. -/
def wSession : SessionState :=
  { sid := "s1", path := "a.ipynb", name := "a", stype := "notebook",
    kernel := { kernelId := "k0", name := "python", clientId := 0, isDisposed := false },
    nextClientId := 1 }

theorem runHooksFrom_events_hookRun (hs : List Hook) (mid : String) :
    ∀ (acc : List Nat), ∀ e ∈ (runHooksFrom acc hs mid).events,
      ∃ h, h ∈ hs ∧ e = Event.hookRun h.hid mid := by
  induction hs with
  | nil => intro acc e he; simp [runHooksFrom] at he
  | cons h rest ih =>
    intro acc e he
    unfold runHooksFrom at he
    split at he
    · obtain ⟨g, hg, rfl⟩ := ih acc e he
      exact ⟨g, List.mem_cons_of_mem _ hg, rfl⟩
    · split at he
      · rcases List.mem_cons.mp he with rfl | hmem
        · exact ⟨h, List.mem_cons_self _ _, rfl⟩
        · obtain ⟨g, hg, rfl⟩ := ih _ e hmem
          exact ⟨g, List.mem_cons_of_mem _ hg, rfl⟩
      · rcases List.mem_cons.mp he with rfl | hmem
        · exact ⟨h, List.mem_cons_self _ _, rfl⟩
        · simp at hmem

theorem runHooksFrom_pure (mid : String) :
    ∀ hs : List Hook, pureHooks hs →
      runHooksFrom [] hs mid = ⟨hs.map (fun h => Event.hookRun h.hid mid), true, []⟩ := by
  intro hs
  induction hs with
  | nil => intro _; rfl
  | cons h rest ih =>
    intro hp
    obtain ⟨hret, hrem⟩ := hp h (List.mem_cons_self _ _)
    have hrest : pureHooks rest := fun g hg => hp g (List.mem_cons_of_mem _ hg)
    unfold runHooksFrom
    simp [hret, hrem, ih hrest]

theorem checkDone_fields (f : FutureState) :
    (f.checkDone).1.msgId = f.msgId ∧ (f.checkDone).1.hooks = f.hooks
    ∧ (f.checkDone).1.gotReply = f.gotReply ∧ (f.checkDone).1.gotIdle = f.gotIdle
    ∧ (f.checkDone).1.expectReply = f.expectReply
    ∧ (f.checkDone).1.disposeOnDone = f.disposeOnDone := by
  unfold FutureState.checkDone
  split <;> simp

theorem checkDone_isDisposed (f : FutureState) (h : f.disposeOnDone = false) :
    (f.checkDone).1.isDisposed = f.isDisposed := by
  unfold FutureState.checkDone
  split <;> simp [h]

theorem checkDone_events (f : FutureState) :
    (f.checkDone).2 = [] ∨ (f.checkDone).2 = [Event.doneResolved f.msgId] := by
  unfold FutureState.checkDone
  split <;> simp

theorem updateStatus_events (s : KernelState) (es : Option String) :
    (updateStatus s es).2 = [] ∨ ∃ st, (updateStatus s es).2 = [Event.statusChanged st] := by
  cases h : es.bind parseStatus with
  | none => simp [updateStatus, h]
  | some st =>
    simp only [updateStatus, h]
    split
    · exact Or.inl rfl
    · exact Or.inr ⟨st, rfl⟩

theorem updateStatus_futures (s : KernelState) (es : Option String) :
    (updateStatus s es).1.futures = s.futures ∧ (updateStatus s es).1.kernelHooks = s.kernelHooks
    ∧ (updateStatus s es).1.clientId = s.clientId := by
  cases h : es.bind parseStatus with
  | none => simp [updateStatus, h]
  | some st =>
    simp only [updateStatus, h]
    split <;> simp

/-- C9: the message codec round-trips: for every message type, channel,
content, metadata and stamping context, a created message validates
successfully, and removing any one of the six required header fields of
a created message makes validation fail with MalformedMessageError. -/
theorem codec_roundTrip_and_tamper (t : String) (ch : Channel)
    (content metadata : List (String × String)) (msgId session username date : String) :
    validate (createMessage t ch content metadata msgId session username date)
        = ValidateResult.ok
    ∧ ∀ i : Fin 6,
        validate (tamperMessage (createMessage t ch content metadata msgId session username date) i)
          = ValidateResult.malformedMessageError := by
  constructor
  · rfl
  · intro i
    match i with
    | ⟨0, _⟩ => rfl
    | ⟨1, _⟩ => rfl
    | ⟨2, _⟩ => rfl
    | ⟨3, _⟩ => rfl
    | ⟨4, _⟩ => rfl
    | ⟨5, _⟩ => rfl

theorem handleFutureMsg_events (s : KernelState) (f : FutureState) (m : KMessage) :
    ∀ e ∈ (handleFutureMsg s f m).2.1, isFutureEvent e = true := by
  obtain ⟨mid, mtype, mch, mpm, mps, mes⟩ := m
  cases mch with
  | iopub =>
    intro e he
    simp only [handleFutureMsg] at he
    rcases List.mem_append.mp he with he1 | hed
    rcases List.mem_append.mp he1 with he2 | hcb
    rcases List.mem_append.mp he2 with hr1 | hr2
    · obtain ⟨h, _, rfl⟩ := runHooksFrom_events_hookRun _ _ _ e hr1
      rfl
    · cases hc : (runHooksFrom [] f.hooks mid).cont with
      | true =>
        simp only [hc, if_true] at hr2
        obtain ⟨h, _, rfl⟩ := runHooksFrom_events_hookRun _ _ _ e hr2
        rfl
      | false => simp [hc] at hr2
    · split at hcb <;> split at hcb <;>
        first
          | (rw [List.mem_singleton] at hcb; subst hcb; rfl)
          | exact absurd hcb (List.not_mem_nil e)
    · rcases checkDone_events _ with hcd | hcd <;> rw [hcd] at hed
      · simp at hed
      · rw [List.mem_singleton] at hed
        subst hed
        rfl
  | shell =>
    intro e he
    simp only [handleFutureMsg] at he
    rcases List.mem_cons.mp he with rfl | he1
    · rfl
    · rcases checkDone_events _ with hcd | hcd <;> rw [hcd] at he1
      · simp at he1
      · simp at he1
        subst he1
        rfl
  | stdin =>
    intro e he
    simp only [handleFutureMsg, List.mem_singleton] at he
    subst he
    rfl
  | control =>
    intro e he
    simp [handleFutureMsg] at he

theorem isFutureEvent_not_anyRecv (e : Event) (h : isFutureEvent e = true) :
    isAnyRecv e = false := by
  cases e <;> simp_all [isFutureEvent, isAnyRecv]

theorem isFutureEvent_not_status (e : Event) (h : isFutureEvent e = true) :
    isStatusEvent e = false := by
  cases e <;> simp_all [isFutureEvent, isStatusEvent]

theorem isFutureEvent_not_unhandled (e : Event) (h : isFutureEvent e = true) :
    isUnhandledEvent e = false := by
  cases e <;> simp_all [isFutureEvent, isUnhandledEvent]

theorem handleMessage_events_classes (s : KernelState) (m : KMessage) :
    ∀ e ∈ (handleMessage s m).2,
      isFutureEvent e = true ∨ isStatusEvent e = true
      ∨ e = Event.iopubSignal m.msgId ∨ e = Event.unhandled m.msgId := by
  intro e he
  simp only [handleMessage] at he
  rcases List.mem_append.mp he with he1 | hunh
  rcases List.mem_append.mp he1 with he2 | hsig
  rcases List.mem_append.mp he2 with hfr | hsu
  · cases hmf : matchedFuture s m with
    | none => rw [hmf] at hfr; simp at hfr
    | some f =>
      rw [hmf] at hfr
      exact Or.inl (handleFutureMsg_events _ _ _ e hfr)
  · split at hsu
    · rcases updateStatus_events _ _ with hu | ⟨st, hu⟩ <;> rw [hu] at hsu
      · simp at hsu
      · rw [List.mem_singleton] at hsu
        subst hsu
        exact Or.inr (Or.inl rfl)
    · simp at hsu
  · split at hsig
    · rw [List.mem_singleton] at hsig
      subst hsig
      exact Or.inr (Or.inr (Or.inl rfl))
    · simp at hsig
  · split at hunh
    · rw [List.mem_singleton] at hunh
      subst hunh
      exact Or.inr (Or.inr (Or.inr rfl))
    · simp at hunh

theorem handleMessage_no_anyRecv (s : KernelState) (m : KMessage) :
    ∀ e ∈ (handleMessage s m).2, isAnyRecv e = false := by
  intro e he
  rcases handleMessage_events_classes s m e he with h | h | rfl | rfl
  · exact isFutureEvent_not_anyRecv e h
  · cases e <;> simp_all [isStatusEvent, isAnyRecv]
  · rfl
  · rfl

theorem handleFutureMsg_state (s : KernelState) (f : FutureState) (m : KMessage) :
    (handleFutureMsg s f m).1.status = s.status
    ∧ (handleFutureMsg s f m).1.clientId = s.clientId := by
  obtain ⟨mid, mtype, mch, mpm, mps, mes⟩ := m
  cases mch <;> simp [handleFutureMsg]

theorem updateStatus_dead (s : KernelState) (es : Option String) (h : s.status = Status.dead) :
    (updateStatus s es).1 = s := by
  cases hb : es.bind parseStatus with
  | none => simp [updateStatus, hb]
  | some st => simp [updateStatus, hb, h]

theorem handleMessage_clientId (s : KernelState) (m : KMessage) :
    (handleMessage s m).1.clientId = s.clientId := by
  simp only [handleMessage]
  have hfr :
      (match matchedFuture s m with
        | none => (s, ([] : List Event), false)
        | some f => handleFutureMsg s f m).1.clientId = s.clientId := by
    cases hmf : matchedFuture s m with
    | none => rfl
    | some f => exact (handleFutureMsg_state s f m).2
  split
  · rw [(updateStatus_futures _ _).2.2, hfr]
  · exact hfr

theorem handleMessage_status_dead (s : KernelState) (m : KMessage) (h : s.status = Status.dead) :
    (handleMessage s m).1.status = Status.dead := by
  simp only [handleMessage]
  have hfr :
      (match matchedFuture s m with
        | none => (s, ([] : List Event), false)
        | some f => handleFutureMsg s f m).1.status = Status.dead := by
    cases hmf : matchedFuture s m with
    | none => exact h
    | some f => rw [(handleFutureMsg_state s f m).1]; exact h
  split
  · rw [updateStatus_dead _ _ hfr]; exact hfr
  · exact hfr

theorem processMessages_status_dead (ms : List KMessage) :
    ∀ s : KernelState, s.status = Status.dead →
      (processMessages s ms).1.status = Status.dead := by
  induction ms with
  | nil => intro s h; exact h
  | cons m rest ih =>
    intro s h
    exact ih _ (handleMessage_status_dead s m h)

/-- C4: whenever the kernel status is dead, every send fails with
KernelIsDeadError: sendShellMessage, requestExecute and sendInputReply
fail synchronously, and the requestComplete wrapper fails with the same
error; dead is terminal, so after any further sequence of inbound
messages the status is still dead and sending still fails. -/
theorem dead_kernel_sends_fail (s : KernelState) (p q r w : String) (er dd : Bool)
    (ms : List KMessage) (hdead : s.status = Status.dead) :
    sendShellMessage s p er dd = Except.error SendError.kernelIsDead
    ∧ requestExecute s q dd = Except.error SendError.kernelIsDead
    ∧ sendInputReply s r = Except.error SendError.kernelIsDead
    ∧ requestComplete s w = Except.error SendError.kernelIsDead
    ∧ (processMessages s ms).1.status = Status.dead
    ∧ sendShellMessage (processMessages s ms).1 p er dd
        = Except.error SendError.kernelIsDead := by
  have hterm := processMessages_status_dead ms s hdead
  refine ⟨?_, ?_, ?_, ?_, hterm, ?_⟩
  · simp [sendShellMessage, hdead]
  · simp [requestExecute, sendShellMessage, hdead]
  · simp [sendInputReply, hdead]
  · simp [requestComplete, sendShellMessage, hdead]
  · simp [sendShellMessage, hterm]

/-- Witness for C4 at a concrete dead connection and a nonempty inbound
message list. -/
theorem dead_kernel_sends_fail_witness :
    sendShellMessage wDeadState "p" true true = Except.error SendError.kernelIsDead
    ∧ requestExecute wDeadState "q" true = Except.error SendError.kernelIsDead
    ∧ sendInputReply wDeadState "r" = Except.error SendError.kernelIsDead
    ∧ requestComplete wDeadState "w" = Except.error SendError.kernelIsDead
    ∧ (processMessages wDeadState [wBusyStatus]).1.status = Status.dead
    ∧ sendShellMessage (processMessages wDeadState [wBusyStatus]).1 "p" true true
        = Except.error SendError.kernelIsDead :=
  dead_kernel_sends_fail wDeadState "p" "q" "r" "w" true true [wBusyStatus] rfl

theorem handleFutureMsg_handled (s : KernelState) (f : FutureState) (m : KMessage) :
    (handleFutureMsg s f m).2.2 = true := by
  obtain ⟨mid, mtype, mch, mpm, mps, mes⟩ := m
  cases mch <;> rfl

theorem matchedFuture_wrong_session (s : KernelState) (m : KMessage)
    (h : m.parentSession ≠ some s.clientId) :
    matchedFuture s m = none := by
  obtain ⟨mid, mtype, mch, mpm, mps, mes⟩ := m
  cases mpm with
  | none => rfl
  | some p =>
    cases mps with
    | none => rfl
    | some sess =>
      have hne : sess ≠ s.clientId := fun hc => h (by rw [hc])
      simp [matchedFuture, hne]

theorem handleMessage_unmatched_events (s : KernelState) (m : KMessage)
    (hmf : matchedFuture s m = none) :
    ∀ e ∈ (handleMessage s m).2,
      isStatusEvent e = true ∨ e = Event.iopubSignal m.msgId ∨ e = Event.unhandled m.msgId := by
  intro e he
  simp only [handleMessage, hmf, List.nil_append] at he
  rcases List.mem_append.mp he with he1 | hunh
  rcases List.mem_append.mp he1 with hsu | hsig
  · split at hsu
    · rcases updateStatus_events _ _ with hu | ⟨st, hu⟩ <;> rw [hu] at hsu
      · simp at hsu
      · rw [List.mem_singleton] at hsu
        subst hsu
        exact Or.inl rfl
    · simp at hsu
  · split at hsig
    · rw [List.mem_singleton] at hsig
      subst hsig
      exact Or.inr (Or.inl rfl)
    · simp at hsig
  · split at hunh
    · rw [List.mem_singleton] at hunh
      subst hunh
      exact Or.inr (Or.inr rfl)
    · simp at hunh

theorem handleMessage_matched_no_unhandled (s : KernelState) (m : KMessage) (f : FutureState)
    (hmf : matchedFuture s m = some f) :
    ∀ e ∈ (handleMessage s m).2, isUnhandledEvent e = false := by
  intro e he
  simp only [handleMessage, hmf] at he
  rcases List.mem_append.mp he with he1 | hunh
  rcases List.mem_append.mp he1 with he2 | hsig
  rcases List.mem_append.mp he2 with hfr | hsu
  · exact isFutureEvent_not_unhandled e (handleFutureMsg_events s f m e hfr)
  · split at hsu
    · rcases updateStatus_events _ _ with hu | ⟨st, hu⟩ <;> rw [hu] at hsu
      · simp at hsu
      · rw [List.mem_singleton] at hsu
        subst hsu
        rfl
    · simp at hsu
  · split at hsig
    · rw [List.mem_singleton] at hsig
      subst hsig
      rfl
    · simp at hsig
  · split at hunh
    · rename_i hcond
      rw [handleFutureMsg_handled] at hcond
      simp at hcond
    · simp at hunh

theorem handleMessage_iopub_no_unhandled (s : KernelState) (m : KMessage)
    (hch : m.channel = Channel.iopub) :
    ∀ e ∈ (handleMessage s m).2, isUnhandledEvent e = false := by
  intro e he
  simp only [handleMessage] at he
  rcases List.mem_append.mp he with he1 | hunh
  · rcases List.mem_append.mp he1 with he2 | hsig
    rcases List.mem_append.mp he2 with hfr | hsu
    · cases hmf : matchedFuture s m with
      | none => rw [hmf] at hfr; simp at hfr
      | some f =>
        rw [hmf] at hfr
        exact isFutureEvent_not_unhandled e (handleFutureMsg_events s f m e hfr)
    · split at hsu
      · rcases updateStatus_events _ _ with hu | ⟨st, hu⟩ <;> rw [hu] at hsu
        · simp at hsu
        · rw [List.mem_singleton] at hsu
          subst hsu
          rfl
      · simp at hsu
    · split at hsig
      · rw [List.mem_singleton] at hsig
        subst hsig
        rfl
      · simp at hsig
  · split at hunh
    · rename_i hcond
      rw [hch] at hcond
      simp at hcond
    · simp at hunh

theorem handleMessage_not_owned_no_unhandled (s : KernelState) (m : KMessage)
    (hb : (m.parentSession == some s.clientId) = false) :
    ∀ e ∈ (handleMessage s m).2, isUnhandledEvent e = false := by
  intro e he
  simp only [handleMessage] at he
  rcases List.mem_append.mp he with he1 | hunh
  · rcases List.mem_append.mp he1 with he2 | hsig
    rcases List.mem_append.mp he2 with hfr | hsu
    · cases hmf : matchedFuture s m with
      | none => rw [hmf] at hfr; simp at hfr
      | some f =>
        rw [hmf] at hfr
        exact isFutureEvent_not_unhandled e (handleFutureMsg_events s f m e hfr)
    · split at hsu
      · rcases updateStatus_events _ _ with hu | ⟨st, hu⟩ <;> rw [hu] at hsu
        · simp at hsu
        · rw [List.mem_singleton] at hsu
          subst hsu
          rfl
      · simp at hsu
    · split at hsig
      · rw [List.mem_singleton] at hsig
        subst hsig
        rfl
      · simp at hsig
  · split at hunh
    · rename_i hcond
      rw [hb] at hcond
      simp at hcond
    · simp at hunh

/-- C3 (amended): every inbound message whose parent session does not
match the clientId is never delivered to any future, hook or callback,
and unhandledMessage does not fire for it — the foreign message is
dropped silently, an iopub one still being emitted on the iopubMessage
signal; unhandledMessage fires only for non-iopub messages owned by this
client (parent session equal to the clientId) that no live future
handled. -/
theorem session_isolation (s : KernelState) (m : KMessage)
    (hws : m.parentSession ≠ some s.clientId) :
    ((handleMessage s m).2.filter isFutureEvent = [])
    ∧ ((handleMessage s m).2.filter isUnhandledEvent = [])
    ∧ (m.channel = Channel.iopub → Event.iopubSignal m.msgId ∈ (handleMessage s m).2)
    ∧ (∀ m2 : KMessage, Event.unhandled m2.msgId ∈ (handleMessage s m2).2 →
        m2.parentSession = some s.clientId ∧ matchedFuture s m2 = none
        ∧ m2.channel ≠ Channel.iopub) := by
  have hmf := matchedFuture_wrong_session s m hws
  have hb : (m.parentSession == some s.clientId) = false := by
    simp [hws]
  refine ⟨?_, ?_, ?_, ?_⟩
  · rw [List.filter_eq_nil_iff]
    intro e he
    rcases handleMessage_unmatched_events s m hmf e he with h | rfl | rfl
    · cases e <;> simp_all [isStatusEvent, isFutureEvent]
    · simp [isFutureEvent]
    · simp [isFutureEvent]
  · rw [List.filter_eq_nil_iff]
    intro e he
    simp [handleMessage_not_owned_no_unhandled s m hb e he]
  · intro hch
    simp only [handleMessage]
    refine List.mem_append.mpr (Or.inl (List.mem_append.mpr (Or.inr ?_)))
    rw [hch]
    simp
  · intro m2 hmem
    simp only [handleMessage] at hmem
    rcases List.mem_append.mp hmem with he1 | hunh
    · exfalso
      rcases List.mem_append.mp he1 with he2 | hsig
      rcases List.mem_append.mp he2 with hfr | hsu
      · cases hmf2 : matchedFuture s m2 with
        | none => rw [hmf2] at hfr; simp at hfr
        | some f =>
          rw [hmf2] at hfr
          have := isFutureEvent_not_unhandled _ (handleFutureMsg_events s f m2 _ hfr)
          simp [isUnhandledEvent] at this
      · split at hsu
        · rcases updateStatus_events _ _ with hu | ⟨st, hu⟩ <;> rw [hu] at hsu
          · simp at hsu
          · rw [List.mem_singleton] at hsu
            cases hsu
        · simp at hsu
      · split at hsig
        · rw [List.mem_singleton] at hsig
          cases hsig
        · simp at hsig
    · split at hunh
      · rename_i hcond
        rw [Bool.and_eq_true] at hcond
        obtain ⟨hnh, howned⟩ := hcond
        have howned2 : m2.parentSession = some s.clientId := by
          rw [beq_iff_eq] at howned
          exact howned
        have hnh2 : ((match matchedFuture s m2 with
            | none => (s, ([] : List Event), false)
            | some f => handleFutureMsg s f m2).2.2
              || (m2.channel == Channel.iopub)) = false := by
          cases hx : ((match matchedFuture s m2 with
            | none => (s, ([] : List Event), false)
            | some f => handleFutureMsg s f m2).2.2
              || (m2.channel == Channel.iopub)) with
          | false => rfl
          | true => rw [hx] at hnh; cases hnh
        rcases Bool.or_eq_false_iff.mp hnh2 with ⟨hA, hB⟩
        refine ⟨howned2, ?_, ?_⟩
        · cases hmf2 : matchedFuture s m2 with
          | none => rfl
          | some f =>
            rw [hmf2] at hA
            rw [handleFutureMsg_handled] at hA
            cases hA
        · intro hch
          rw [hch] at hB
          simp at hB
      · simp at hunh

/-- Counterexample to C3 as stated: a shell message whose parent session
(w) differs from the connection's clientId (c) is not routed to
unhandledMessage — its handling emits no event at all — and an iopub
status message with the same foreign parent session is emitted on the
iopubMessage signal, not on unhandledMessage. -/
theorem session_isolation_counterexample :
    wForeignShell.parentSession = some "w"
    ∧ wForeignShell.channel = Channel.shell
    ∧ wEmptyState.clientId = "c"
    ∧ (handleMessage wEmptyState wForeignShell).2 = []
    ∧ (handleMessage wEmptyState wForeignIopub).2 = [Event.iopubSignal "mf"] := by
  refine ⟨rfl, rfl, rfl, ?_, ?_⟩ <;> rfl

/-- Witness for C3 (amended) at the concrete foreign-session shell
message of the repository's unhandledMessage test. -/
theorem session_isolation_witness :
    (handleMessage wEmptyState wForeignShell).2.filter isFutureEvent = []
    ∧ (handleMessage wEmptyState wForeignShell).2.filter isUnhandledEvent = []
    ∧ Event.iopubSignal wForeignIopub.msgId
        ∈ (handleMessage wEmptyState wForeignIopub).2 :=
  ⟨(session_isolation wEmptyState wForeignShell (by decide)).1,
   (session_isolation wEmptyState wForeignShell (by decide)).2.1,
   (session_isolation wEmptyState wForeignIopub (by decide)).2.2.1 rfl⟩

theorem updateStatus_none (s : KernelState) (es : Option String)
    (hb : es.bind parseStatus = none) : updateStatus s es = (s, []) := by
  simp [updateStatus, hb]

theorem updateStatus_change (s : KernelState) (es : Option String) (st : Status)
    (hb : es.bind parseStatus = some st) (hnd : s.status ≠ Status.dead)
    (hns : st ≠ s.status) :
    updateStatus s es = ({ s with status := st }, [Event.statusChanged st]) := by
  have h1 : (s.status == Status.dead) = false := by simp [hnd]
  have h2 : (st == s.status) = false := by simp [hns]
  simp [updateStatus, hb, h1, h2]

theorem updateStatus_status_congr (s1 s2 : KernelState) (es : Option String)
    (h : s1.status = s2.status) :
    (updateStatus s1 es).1.status = (updateStatus s2 es).1.status
    ∧ (updateStatus s1 es).2 = (updateStatus s2 es).2 := by
  cases hb : es.bind parseStatus with
  | none => simp [updateStatus, hb, h]
  | some st =>
    by_cases hc : (s2.status == Status.dead || st == s2.status) = true
    · simp [updateStatus, hb, h, hc]
    · simp [updateStatus, hb, h, hc]

theorem handleMessage_iopubStatus (s : KernelState) (m : KMessage)
    (hc : m.channel = Channel.iopub) (ht : m.msgType = "status") :
    (handleMessage s m).1.status = (updateStatus s m.executionState).1.status
    ∧ (handleMessage s m).2.filter isStatusEvent = (updateStatus s m.executionState).2 := by
  have hcond : (m.channel == Channel.iopub && m.msgType == "status") = true := by
    simp [hc, ht]
  have hfrst : (match matchedFuture s m with
      | none => (s, ([] : List Event), false)
      | some f => handleFutureMsg s f m).1.status = s.status := by
    cases hmf : matchedFuture s m with
    | none => rfl
    | some f => exact (handleFutureMsg_state s f m).1
  have hfrev : ∀ e ∈ (match matchedFuture s m with
      | none => (s, ([] : List Event), false)
      | some f => handleFutureMsg s f m).2.1, isStatusEvent e = false := by
    cases hmf : matchedFuture s m with
    | none => intro e he; simp at he
    | some f =>
      intro e he
      exact isFutureEvent_not_status e (handleFutureMsg_events s f m e he)
  constructor
  · simp only [handleMessage, hcond, if_true]
    exact (updateStatus_status_congr _ _ _ hfrst).1
  · simp only [handleMessage, hcond, if_true]
    have hch : (m.channel == Channel.iopub) = true := by simp [hc]
    have hfilfr : (List.filter isStatusEvent (match matchedFuture s m with
        | none => (s, ([] : List Event), false)
        | some f => handleFutureMsg s f m).2.1) = [] :=
      List.filter_eq_nil_iff.mpr (fun e he => by simp [hfrev e he])
    have hcongr := (updateStatus_status_congr (match matchedFuture s m with
        | none => (s, ([] : List Event), false)
        | some f => handleFutureMsg s f m).1 s m.executionState hfrst).2
    rcases updateStatus_events s m.executionState with hu | ⟨st, hu⟩ <;>
      simp [List.filter_append, hfilfr, hch, hcongr, hu, isStatusEvent]

/-- C10: an inbound iopub status message whose execution_state is not a
recognized status value is ignored: statusChanged does not fire and the
status property is unchanged; a subsequent status message carrying the
valid value busy is then emitted normally and updates the status (and
statusChanged, by construction of the event type, only ever carries a
value of the enumerated status set). -/
theorem invalid_status_ignored (s : KernelState) (m1 m2 : KMessage)
    (h1c : m1.channel = Channel.iopub) (h1t : m1.msgType = "status")
    (h1e : Option.bind m1.executionState parseStatus = none)
    (h2c : m2.channel = Channel.iopub) (h2t : m2.msgType = "status")
    (h2e : m2.executionState = some "busy")
    (hnb : s.status ≠ Status.busy) (hnd : s.status ≠ Status.dead) :
    ((handleMessage s m1).1.status = s.status)
    ∧ ((handleMessage s m1).2.filter isStatusEvent = [])
    ∧ ((handleMessage (handleMessage s m1).1 m2).1.status = Status.busy)
    ∧ ((handleMessage (handleMessage s m1).1 m2).2.filter isStatusEvent
        = [Event.statusChanged Status.busy]) := by
  have hu1 := updateStatus_none s m1.executionState h1e
  have hp1 := handleMessage_iopubStatus s m1 h1c h1t
  have hst1 : (handleMessage s m1).1.status = s.status := by
    rw [hp1.1, hu1]
  have hbind2 : Option.bind m2.executionState parseStatus = some Status.busy := by
    rw [h2e]; rfl
  have hu2 := updateStatus_change (handleMessage s m1).1 m2.executionState Status.busy
    hbind2 (by rw [hst1]; exact hnd) (by rw [hst1]; exact fun hx => hnb hx.symm)
  have hp2 := handleMessage_iopubStatus (handleMessage s m1).1 m2 h2c h2t
  refine ⟨hst1, ?_, ?_, ?_⟩
  · rw [hp1.2, hu1]
  · rw [hp2.1, hu2]
  · rw [hp2.2, hu2]

/-- Witness for C10 at a concrete connection: the unrecognized
execution_state banana is ignored, the following busy status is
emitted. -/
theorem invalid_status_ignored_witness :
    ((handleMessage wEmptyState wBadStatus).1.status = wEmptyState.status)
    ∧ ((handleMessage wEmptyState wBadStatus).2.filter isStatusEvent = [])
    ∧ ((handleMessage (handleMessage wEmptyState wBadStatus).1 wBusyStatus).1.status
        = Status.busy)
    ∧ ((handleMessage (handleMessage wEmptyState wBadStatus).1 wBusyStatus).2.filter
        isStatusEvent = [Event.statusChanged Status.busy]) :=
  invalid_status_ignored wEmptyState wBadStatus wBusyStatus rfl rfl (by rfl) rfl rfl rfl
    (by decide) (by decide)

theorem matchedFuture_singleton (s : KernelState) (f : FutureState) (m : KMessage)
    (hf : s.futures = [f]) (hd : f.isDisposed = false)
    (hpm : m.parentMsgId = some f.msgId) (hps : m.parentSession = some s.clientId) :
    matchedFuture s m = some f := by
  obtain ⟨mid, mtype, mch, mpm, mps, mes⟩ := m
  simp only at hpm hps
  subst hpm
  subst hps
  simp [matchedFuture, hf, hd]

theorem replaceFuture_singleton (f g : FutureState) (h : g.msgId = f.msgId)
    (hd : f.isDisposed = false) : replaceFuture [f] g = [g] := by
  simp [replaceFuture, h, hd]

theorem handleFutureMsg_filter_self (s : KernelState) (f : FutureState) (m : KMessage) :
    ((handleFutureMsg s f m).2.1).filter isFutureEvent = (handleFutureMsg s f m).2.1 :=
  List.filter_eq_self.mpr (handleFutureMsg_events s f m)

theorem handleMessage_matched (s : KernelState) (m : KMessage) (f : FutureState)
    (hmf : matchedFuture s m = some f) :
    (handleMessage s m).1.futures = (handleFutureMsg s f m).1.futures
    ∧ (handleMessage s m).1.kernelHooks = (handleFutureMsg s f m).1.kernelHooks
    ∧ (handleMessage s m).2.filter isFutureEvent = (handleFutureMsg s f m).2.1 := by
  have hcls : ∀ l : List Event, (∀ e ∈ l, isStatusEvent e = true) →
      l.filter isFutureEvent = [] := by
    intro l hl
    refine List.filter_eq_nil_iff.mpr (fun e he => ?_)
    have := hl e he
    cases e <;> simp_all [isStatusEvent, isFutureEvent]
  have hsu : ∀ s2 : KernelState, ∀ es : Option String,
      (updateStatus s2 es).2.filter isFutureEvent = [] := by
    intro s2 es
    rcases updateStatus_events s2 es with hu | ⟨st, hu⟩ <;> rw [hu]
    · rfl
    · rfl
  refine ⟨?_, ?_, ?_⟩
  · simp only [handleMessage, hmf]
    split
    · exact (updateStatus_futures _ _).1
    · rfl
  · simp only [handleMessage, hmf]
    split
    · exact (updateStatus_futures _ _).2.1
    · rfl
  · simp only [handleMessage, hmf]
    rw [List.filter_append, List.filter_append, List.filter_append]
    rw [handleFutureMsg_filter_self]
    have h2 : (if (m.channel == Channel.iopub && m.msgType == "status") = true
        then updateStatus (handleFutureMsg s f m).1 m.executionState
        else ((handleFutureMsg s f m).1, [])).2.filter isFutureEvent = [] := by
      split
      · exact hsu _ _
      · rfl
    have h3 : (if (m.channel == Channel.iopub) = true
        then [Event.iopubSignal m.msgId] else ([] : List Event)).filter isFutureEvent
        = [] := by
      split <;> rfl
    have h4 : ∀ b : Bool, (if b = true then [Event.unhandled m.msgId]
        else ([] : List Event)).filter isFutureEvent = [] := by
      intro b
      cases b <;> rfl
    rw [h2, h3, h4]
    simp

/-- C7: if a message hook returns false for an iopub message, all further
hook processing for that message halts (later hooks in the chain and the
onIOPub callback are not invoked for it), but delivery accounting is
unaffected: an idle-status message still counts toward completion and,
the reply having already been observed, the done promise resolves. -/
theorem hook_false_halts_but_done (s : KernelState) (f : FutureState) (h0 : Hook)
    (rest : List Hook) (m : KMessage)
    (hfut : s.futures = [f]) (hd : f.isDisposed = false)
    (hh : f.hooks = h0 :: rest) (hret : h0.ret = false)
    (hch : m.channel = Channel.iopub) (hpm : m.parentMsgId = some f.msgId)
    (hps : m.parentSession = some s.clientId)
    (hidle : isIdleStatus m = true)
    (hgr : f.gotReply = true) (hdc : f.doneCount = 0) :
    ((handleMessage s m).2.filter isFutureEvent
      = [Event.hookRun h0.hid m.msgId, Event.doneResolved f.msgId])
    ∧ ((futureAt (handleMessage s m).1 f.msgId).map FutureState.doneCount = some 1) := by
  have hmf := matchedFuture_singleton s f m hfut hd hpm hps
  obtain ⟨hfu, -, hev⟩ := handleMessage_matched s m f hmf
  have hr1 : runHooksFrom [] f.hooks m.msgId
      = ⟨[Event.hookRun h0.hid m.msgId], false, h0.removes⟩ := by
    rw [hh]
    simp [runHooksFrom, hret]
  obtain ⟨mid, mtype, mch, mpm, mps, mes⟩ := m
  cases mch with
  | iopub =>
    constructor
    · rw [hev]
      simp only [handleFutureMsg, hr1]
      simp [FutureState.checkDone, hidle, hgr, hdc]
    · simp only [futureAt]
      rw [hfu]
      simp only [handleFutureMsg, hr1]
      simp only [hidle, if_true, hfut]
      simp [FutureState.checkDone, hgr, hdc, replaceFuture, hd]
  | shell => simp at hch
  | stdin => simp at hch
  | control => simp at hch

/-- Witness for C7: the concrete halting hook stops the second hook and
the onIOPub callback, yet done resolves on the idle-status message. -/
theorem hook_false_halts_but_done_witness :
    ((handleMessage wHaltState wIdle).2.filter isFutureEvent
      = [Event.hookRun 3 "m2", Event.doneResolved "p"])
    ∧ ((futureAt (handleMessage wHaltState wIdle).1 "p").map FutureState.doneCount
        = some 1) :=
  hook_false_halts_but_done wHaltState wHaltFuture wHalting [wHookA] wIdle
    rfl rfl rfl rfl rfl rfl rfl rfl rfl rfl

theorem mem_kernelHooksFor (s : KernelState) (p : String) (h : Hook)
    (hm : h ∈ kernelHooksFor s p) : h.hid ∈ s.kernelHooks.map (fun q => q.2.hid) := by
  simp only [kernelHooksFor] at hm
  obtain ⟨q, hq, rfl⟩ := List.mem_map.mp hm
  exact List.mem_map.mpr ⟨q, List.mem_of_mem_filter hq, rfl⟩

theorem matchedFuture_mem (s : KernelState) (m : KMessage) (f : FutureState)
    (hmf : matchedFuture s m = some f) : f ∈ s.futures := by
  obtain ⟨mid, mtype, mch, mpm, mps, mes⟩ := m
  cases mpm with
  | none => simp [matchedFuture] at hmf
  | some p =>
    cases mps with
    | none => simp [matchedFuture] at hmf
    | some sess =>
      simp only [matchedFuture] at hmf
      split at hmf
      · exact List.mem_of_find?_eq_some hmf
      · simp at hmf

theorem handleMessage_hookRun_mem (s : KernelState) (m : KMessage) (hid : Nat) (x : String)
    (hmem : Event.hookRun hid x ∈ (handleMessage s m).2) : hid ∈ hookIds s := by
  simp only [handleMessage] at hmem
  rcases List.mem_append.mp hmem with he1 | hunh
  rcases List.mem_append.mp he1 with he2 | hsig
  rcases List.mem_append.mp he2 with hfr | hsu
  · cases hmf : matchedFuture s m with
    | none => rw [hmf] at hfr; simp at hfr
    | some f =>
      rw [hmf] at hfr
      have hfmem := matchedFuture_mem s m f hmf
      obtain ⟨mid, mtype, mch, mpm, mps, mes⟩ := m
      cases mch with
      | iopub =>
        simp only [handleFutureMsg] at hfr
        rcases List.mem_append.mp hfr with hf1 | hfd
        rcases List.mem_append.mp hf1 with hf2 | hcb
        rcases List.mem_append.mp hf2 with hr1 | hr2
        · obtain ⟨h, hh, heq⟩ := runHooksFrom_events_hookRun f.hooks mid [] _ hr1
          have : hid = h.hid := by cases heq; rfl
          subst this
          exact List.mem_append.mpr (Or.inl
            (List.mem_flatMap.mpr ⟨f, hfmem, List.mem_map.mpr ⟨h, hh, rfl⟩⟩))
        · cases hc : (runHooksFrom [] f.hooks mid).cont with
          | true =>
            simp only [hc, if_true] at hr2
            obtain ⟨h, hh, heq⟩ := runHooksFrom_events_hookRun _ mid _ _ hr2
            have : hid = h.hid := by cases heq; rfl
            subst this
            exact List.mem_append.mpr (Or.inr (mem_kernelHooksFor s f.msgId h hh))
          | false => simp [hc] at hr2
        · split at hcb <;> split at hcb <;> simp at hcb
        · rcases checkDone_events _ with hcd | hcd <;> rw [hcd] at hfd <;> simp at hfd
      | shell =>
        simp only [handleFutureMsg] at hfr
        rcases List.mem_cons.mp hfr with heq | hfd
        · cases heq
        · rcases checkDone_events _ with hcd | hcd <;> rw [hcd] at hfd <;> simp at hfd
      | stdin => simp [handleFutureMsg] at hfr
      | control => simp [handleFutureMsg] at hfr
  · split at hsu
    · rcases updateStatus_events _ _ with hu | ⟨st, hu⟩ <;> rw [hu] at hsu <;> simp at hsu
    · simp at hsu
  · split at hsig <;> simp at hsig
  · split at hunh <;> simp at hunh

theorem removeMessageHook_not_mem (s : KernelState) (hid : Nat) :
    hid ∉ hookIds (s.removeMessageHook hid) := by
  intro hmem
  simp only [hookIds, KernelState.removeMessageHook] at hmem
  rcases List.mem_append.mp hmem with hf | hk
  · obtain ⟨f, hfmem, hin⟩ := List.mem_flatMap.mp hf
    obtain ⟨g, hgmem, hid2⟩ := List.mem_map.mp hin
    obtain ⟨f0, hf0, rfl⟩ := List.mem_map.mp hfmem
    have := List.mem_filter.mp hgmem
    simp [hid2] at this
  · obtain ⟨q, hqmem, hid2⟩ := List.mem_map.mp hk
    have := List.mem_filter.mp hqmem
    simp [hid2] at this

theorem runHooksFrom_removed_skipped (mid : String) (hid : Nat) (x : String) :
    ∀ (hs : List Hook) (acc : List Nat), hid ∈ acc →
      Event.hookRun hid x ∉ (runHooksFrom acc hs mid).events := by
  intro hs
  induction hs with
  | nil => intro acc hacc hmem; simp [runHooksFrom] at hmem
  | cons h rest ih =>
    intro acc hacc hmem
    unfold runHooksFrom at hmem
    split at hmem
    · exact ih acc hacc hmem
    · rename_i hskip
      split at hmem
      · rcases List.mem_cons.mp hmem with heq | hmem2
        · have : h.hid = hid := by cases heq; rfl
          exact hskip (by rw [this]; exact List.elem_iff.mpr hacc)
        · exact ih _ (List.mem_append.mpr (Or.inl hacc)) hmem2
      · rcases List.mem_cons.mp hmem with heq | hmem2
        · have : h.hid = hid := by cases heq; rfl
          exact hskip (by rw [this]; exact List.elem_iff.mpr hacc)
        · simp at hmem2

/-- C6: removing a message hook takes effect immediately. For any two
inbound messages processed in sequence, if the hook identity is removed
after the first message's processing, the second message never invokes
the removed hook; and within a single chain, a hook whose identity is in
the already-removed set is never invoked even though an earlier hook of
the same chain removed it. -/
theorem removed_hook_never_runs (s : KernelState) (m1 m2 : KMessage) (hid : Nat)
    (x : String) :
    (Event.hookRun hid x
        ∉ (handleMessage ((handleMessage s m1).1.removeMessageHook hid) m2).2)
    ∧ (∀ (hs : List Hook) (acc : List Nat) (mid : String), hid ∈ acc →
        Event.hookRun hid x ∉ (runHooksFrom acc hs mid).events) := by
  constructor
  · intro hmem
    exact removeMessageHook_not_mem _ hid (handleMessage_hookRun_mem _ m2 hid x hmem)
  · intro hs acc mid hacc
    exact runHooksFrom_removed_skipped mid hid x hs acc hacc

theorem handleMessage_matched_filter (s : KernelState) (m : KMessage) (f : FutureState)
    (hmf : matchedFuture s m = some f) (P : Event → Bool)
    (hPs : ∀ st, P (Event.statusChanged st) = false)
    (hPi : ∀ x, P (Event.iopubSignal x) = false)
    (hPu : ∀ x, P (Event.unhandled x) = false) :
    (handleMessage s m).2.filter P = ((handleFutureMsg s f m).2.1).filter P := by
  simp only [handleMessage, hmf]
  rw [List.filter_append, List.filter_append, List.filter_append]
  have h2 : (if (m.channel == Channel.iopub && m.msgType == "status") = true
      then updateStatus (handleFutureMsg s f m).1 m.executionState
      else ((handleFutureMsg s f m).1, [])).2.filter P = [] := by
    split
    · rcases updateStatus_events _ _ with hu | ⟨st, hu⟩ <;> rw [hu]
      · rfl
      · simp [hPs]
    · rfl
  have h3 : (if (m.channel == Channel.iopub) = true
      then [Event.iopubSignal m.msgId] else ([] : List Event)).filter P = [] := by
    split
    · simp [hPi]
    · rfl
  have h4 : ∀ b : Bool, (if b = true then [Event.unhandled m.msgId]
      else ([] : List Event)).filter P = [] := by
    intro b
    cases b
    · rfl
    · simp [hPu]
  rw [h2, h3, h4]
  simp

theorem filter_isInvocation_hookRunMap (l : List Hook) (mid : String) :
    (l.map (fun h => Event.hookRun h.hid mid)).filter isInvocation
      = l.map (fun h => Event.hookRun h.hid mid) :=
  List.filter_eq_self.mpr (by
    intro e he
    obtain ⟨h, -, rfl⟩ := List.mem_map.mp he
    rfl)

theorem handleFutureMsg_iopub_pure (s : KernelState) (f : FutureState) (m : KMessage)
    (hch : m.channel = Channel.iopub)
    (hp : pureHooks f.hooks) (hkp : pureHooks (kernelHooksFor s f.msgId)) :
    ((handleFutureMsg s f m).2.1).filter isInvocation
      = f.hooks.map (fun h => Event.hookRun h.hid m.msgId)
        ++ (kernelHooksFor s f.msgId).map (fun h => Event.hookRun h.hid m.msgId)
        ++ [Event.onIOPub f.msgId m.msgId]
    ∧ (handleFutureMsg s f m).1.kernelHooks = s.kernelHooks
    ∧ (∃ g, (handleFutureMsg s f m).1.futures = replaceFuture s.futures g
        ∧ g.msgId = f.msgId ∧ g.hooks = f.hooks ∧ g.disposeOnDone = f.disposeOnDone
        ∧ (f.disposeOnDone = false → g.isDisposed = f.isDisposed)) := by
  have hfilterH : ∀ (l : List Hook),
      l.filter (fun h => !(([] : List Nat).contains h.hid)) = l := fun l =>
    List.filter_eq_self.mpr (fun a _ => rfl)
  have hfilterK : ∀ (l : List (String × Hook)),
      l.filter (fun q => !(([] : List Nat).contains q.2.hid)) = l := fun l =>
    List.filter_eq_self.mpr (fun a _ => rfl)
  obtain ⟨mid, mtype, mch, mpm, mps, mes⟩ := m
  cases mch with
  | iopub =>
    have hr1 := runHooksFrom_pure mid f.hooks hp
    have hr2 := runHooksFrom_pure mid (kernelHooksFor s f.msgId) hkp
    refine ⟨?_, ?_, ?_⟩
    · simp only [handleFutureMsg, hr1, if_true]
      simp only [hr2]
      rw [List.filter_append, List.filter_append, List.filter_append]
      rw [filter_isInvocation_hookRunMap, filter_isInvocation_hookRunMap]
      have hfd : ∀ g : FutureState, (g.checkDone).2.filter isInvocation = [] := by
        intro g
        rcases checkDone_events g with hcd | hcd <;> rw [hcd] <;> rfl
      simp [hfd, isInvocation]
    · simp only [handleFutureMsg, hr1, if_true]
      simp only [hr2]
      exact hfilterK s.kernelHooks
    · simp only [handleFutureMsg, hr1, if_true]
      simp only [hr2]
      refine ⟨_, rfl, ?_, ?_, ?_, ?_⟩
      · rw [(checkDone_fields _).1]
        split <;> rfl
      · rw [(checkDone_fields _).2.1]
        split <;> simp [hfilterH]
      · rw [(checkDone_fields _).2.2.2.2.2]
        split <;> rfl
      · intro hdd
        have hdd2 : (if isIdleStatus ⟨mid, mtype, Channel.iopub, mpm, mps, mes⟩ = true
            then { f with
              hooks := f.hooks.filter (fun h => !(([] : List Nat).contains h.hid)),
              gotIdle := true }
            else { f with
              hooks := f.hooks.filter (fun h => !(([] : List Nat).contains h.hid)) }
            : FutureState).disposeOnDone = false := by
          split <;> exact hdd
        rw [checkDone_isDisposed _ hdd2]
        split <;> rfl
  | shell => simp at hch
  | stdin => simp at hch
  | control => simp at hch

theorem processMessages_iopub_pure_aux (cid p : String) (hooks0 : List Hook)
    (kh : List (String × Hook)) (hp : pureHooks hooks0)
    (hkp : pureHooks ((kh.filter (fun q => q.1 == p)).map (fun q => q.2))) :
    ∀ (ms : List KMessage) (s : KernelState) (f : FutureState),
      s.clientId = cid → s.kernelHooks = kh → s.futures = [f] → f.msgId = p →
      f.hooks = hooks0 → f.disposeOnDone = false → f.isDisposed = false →
      (∀ m ∈ ms, m.channel = Channel.iopub ∧ m.parentMsgId = some p ∧
        m.parentSession = some cid) →
      (processMessages s ms).2.filter isInvocation
        = ms.flatMap (fun m =>
            hooks0.map (fun h => Event.hookRun h.hid m.msgId)
            ++ ((kh.filter (fun q => q.1 == p)).map (fun q => q.2)).map
                (fun h => Event.hookRun h.hid m.msgId)
            ++ [Event.onIOPub p m.msgId]) := by
  intro ms
  induction ms with
  | nil => intro s f _ _ _ _ _ _ _ _; rfl
  | cons m rest ih =>
    intro s f hcid hkh hfut hmsg hhooks hdd hnd hms
    obtain ⟨hch, hpm, hps⟩ := hms m (List.mem_cons_self _ _)
    have hkfor : kernelHooksFor s p
        = (kh.filter (fun q => q.1 == p)).map (fun q => q.2) := by
      simp [kernelHooksFor, hkh]
    have hmf := matchedFuture_singleton s f m hfut hnd (by rw [hpm, hmsg])
      (by rw [hps, hcid])
    have hkp2 : pureHooks (kernelHooksFor s f.msgId) := by
      rw [hmsg, hkfor]; exact hkp
    have hp2 : pureHooks f.hooks := by rw [hhooks]; exact hp
    obtain ⟨hev, hkh2, g, hfu2, hgmsg, hghooks, hgdd, hgdisp⟩ :=
      handleFutureMsg_iopub_pure s f m hch hp2 hkp2
    have hflt := handleMessage_matched_filter s m f hmf isInvocation
      (fun st => rfl) (fun x => rfl) (fun x => rfl)
    simp only [processMessages]
    rw [List.filter_append, hflt, hev]
    have hclientId2 := handleMessage_clientId s m
    have hfutures2 : (handleMessage s m).1.futures = [g] := by
      rw [(handleMessage_matched s m f hmf).1, hfu2, hfut,
        replaceFuture_singleton _ _ hgmsg hnd]
    have hkernelHooks2 : (handleMessage s m).1.kernelHooks = kh := by
      rw [(handleMessage_matched s m f hmf).2.1, hkh2, hkh]
    rw [ih (handleMessage s m).1 g (by rw [hclientId2, hcid]) hkernelHooks2 hfutures2
      (by rw [hgmsg, hmsg]) (by rw [hghooks, hhooks]) (by rw [hgdd]; exact hdd)
      (by rw [hgdisp hdd]; exact hnd)
      (fun m2 hm2 => hms m2 (List.mem_cons_of_mem _ hm2))]
    rw [hhooks, hmsg, hkfor]
    simp

/-- C1: for every sequence of iopub messages sharing one parent id, each
message invokes, in this fixed order: all of the future's message hooks
(head of the hook list first), then the kernel-level message hooks for
that parent id (in their list order), then the future's onIOPub callback
— and the invocation trace of the whole sequence is the per-message
blocks concatenated in order, i.e. processing is fully sequential.
Registration prepends, at the future level and at the kernel level, so
the most recently registered hook runs first. -/
theorem iopub_handler_order (s : KernelState) (f : FutureState) (ms : List KMessage)
    (hfut : s.futures = [f]) (hnd : f.isDisposed = false) (hdd : f.disposeOnDone = false)
    (hp : pureHooks f.hooks) (hkp : pureHooks (kernelHooksFor s f.msgId))
    (hms : ∀ m ∈ ms, m.channel = Channel.iopub ∧ m.parentMsgId = some f.msgId ∧
        m.parentSession = some s.clientId) :
    ((processMessages s ms).2.filter isInvocation
      = ms.flatMap (fun m =>
          f.hooks.map (fun h => Event.hookRun h.hid m.msgId)
          ++ (kernelHooksFor s f.msgId).map (fun h => Event.hookRun h.hid m.msgId)
          ++ [Event.onIOPub f.msgId m.msgId]))
    ∧ (∀ (g : FutureState) (a b : Hook),
        ((g.registerHook a).registerHook b).hooks = b :: a :: g.hooks)
    ∧ (∀ (s2 : KernelState) (p2 : String) (a b : Hook),
        kernelHooksFor ((s2.registerKernelHook p2 a).registerKernelHook p2 b) p2
          = b :: a :: kernelHooksFor s2 p2) := by
  refine ⟨?_, fun g a b => rfl, fun s2 p2 a b => by
    simp [kernelHooksFor, KernelState.registerKernelHook]⟩
  have hkfor : kernelHooksFor s f.msgId
      = ((s.kernelHooks.filter (fun q => q.1 == f.msgId)).map (fun q => q.2)) := rfl
  rw [hkfor]
  exact processMessages_iopub_pure_aux s.clientId f.msgId f.hooks s.kernelHooks hp
    (by rw [← hkfor]; exact hkp) ms s f rfl rfl hfut rfl rfl hdd hnd hms

/-- Witness for C1 at the concrete connection: two future hooks, one
kernel-level hook, and a stream message followed by an idle status. -/
theorem iopub_handler_order_witness :
    (processMessages wState [wStream, wIdle]).2.filter isInvocation
      = [wStream, wIdle].flatMap (fun m =>
          wFuture.hooks.map (fun h => Event.hookRun h.hid m.msgId)
          ++ (kernelHooksFor wState wFuture.msgId).map
              (fun h => Event.hookRun h.hid m.msgId)
          ++ [Event.onIOPub wFuture.msgId m.msgId]) :=
  (iopub_handler_order wState wFuture [wStream, wIdle] rfl rfl rfl
    (by
      intro h hm
      simp [wFuture, newFuture, FutureState.registerHook, wHookA, wHookB] at hm
      rcases hm with rfl | rfl <;> exact ⟨rfl, rfl⟩)
    (by
      intro h hm
      simp [kernelHooksFor, wState, wKernelHookA] at hm
      rw [hm.2]
      exact ⟨rfl, rfl⟩)
    (by decide)).1

theorem checkDone_invariant (f2 : FutureState) (oldR oldI : Bool)
    (hexp : f2.expectReply = true)
    (hdc : f2.doneCount = if oldR && oldI then 1 else 0)
    (hdisp : f2.isDisposed = (f2.disposeOnDone && oldR && oldI))
    (hmonR : oldR = true → f2.gotReply = true)
    (hmonI : oldI = true → f2.gotIdle = true) :
    ((f2.checkDone).1.doneCount = if f2.gotReply && f2.gotIdle then 1 else 0)
    ∧ ((f2.checkDone).1.isDisposed
        = (f2.disposeOnDone && f2.gotReply && f2.gotIdle)) := by
  cases hoR : oldR <;> cases hoI : oldI <;>
    simp only [hoR, hoI] at hdc hdisp hmonR hmonI <;>
    cases hR : f2.gotReply <;> cases hI : f2.gotIdle <;>
    simp_all [FutureState.checkDone]

theorem handleFutureMsg_iopub_future (s : KernelState) (f : FutureState) (m : KMessage)
    (hch : m.channel = Channel.iopub) :
    ∃ g, (handleFutureMsg s f m).1.futures = replaceFuture s.futures g
      ∧ g.msgId = f.msgId ∧ g.expectReply = f.expectReply
      ∧ g.disposeOnDone = f.disposeOnDone
      ∧ g.gotReply = f.gotReply
      ∧ g.gotIdle = (f.gotIdle || isIdleStatus m)
      ∧ (f.expectReply = true →
          f.doneCount = (if f.gotReply && f.gotIdle then 1 else 0) →
          f.isDisposed = (f.disposeOnDone && f.gotReply && f.gotIdle) →
          (g.doneCount = if g.gotReply && g.gotIdle then 1 else 0)
          ∧ g.isDisposed = (g.disposeOnDone && g.gotReply && g.gotIdle)) := by
  obtain ⟨mid, mtype, mch, mpm, mps, mes⟩ := m
  cases mch with
  | iopub =>
    simp only [handleFutureMsg]
    refine ⟨_, rfl, ?_, ?_, ?_, ?_, ?_, ?_⟩
    · rw [(checkDone_fields _).1]
      split <;> rfl
    · rw [(checkDone_fields _).2.2.2.2.1]
      split <;> rfl
    · rw [(checkDone_fields _).2.2.2.2.2]
      split <;> rfl
    · rw [(checkDone_fields _).2.2.1]
      split <;> rfl
    · rw [(checkDone_fields _).2.2.2.1]
      cases hidl : isIdleStatus ⟨mid, mtype, Channel.iopub, mpm, mps, mes⟩ <;>
        simp [hidl]
    · intro hexp hdc hdisp
      have hres := checkDone_invariant
        (if isIdleStatus ⟨mid, mtype, Channel.iopub, mpm, mps, mes⟩ = true
         then { f with
            hooks := f.hooks.filter (fun h =>
              !((if (runHooksFrom [] f.hooks mid).cont = true
                 then runHooksFrom (runHooksFrom [] f.hooks mid).removed
                    (kernelHooksFor s f.msgId) mid
                 else ⟨[], false, (runHooksFrom [] f.hooks mid).removed⟩).removed.contains
                h.hid)),
            gotIdle := true }
         else { f with
            hooks := f.hooks.filter (fun h =>
              !((if (runHooksFrom [] f.hooks mid).cont = true
                 then runHooksFrom (runHooksFrom [] f.hooks mid).removed
                    (kernelHooksFor s f.msgId) mid
                 else ⟨[], false, (runHooksFrom [] f.hooks mid).removed⟩).removed.contains
                h.hid)) })
        f.gotReply f.gotIdle
        (by split <;> exact hexp)
        (by split <;> exact hdc)
        (by split <;> simpa using hdisp)
        (by split <;> (intro h; simpa using h))
        (by split <;> (intro h; simp [h]))
      constructor
      · rw [hres.1, (checkDone_fields _).2.2.1, (checkDone_fields _).2.2.2.1]
      · rw [hres.2, (checkDone_fields _).2.2.2.2.2, (checkDone_fields _).2.2.1,
          (checkDone_fields _).2.2.2.1]
  | shell => simp at hch
  | stdin => simp at hch
  | control => simp at hch

theorem handleFutureMsg_shell_future (s : KernelState) (f : FutureState) (m : KMessage)
    (hch : m.channel = Channel.shell) :
    ∃ g, (handleFutureMsg s f m).1.futures = replaceFuture s.futures g
      ∧ g.msgId = f.msgId ∧ g.expectReply = f.expectReply
      ∧ g.disposeOnDone = f.disposeOnDone
      ∧ g.gotReply = true
      ∧ g.gotIdle = f.gotIdle
      ∧ (f.expectReply = true →
          f.doneCount = (if f.gotReply && f.gotIdle then 1 else 0) →
          f.isDisposed = (f.disposeOnDone && f.gotReply && f.gotIdle) →
          (g.doneCount = if g.gotReply && g.gotIdle then 1 else 0)
          ∧ g.isDisposed = (g.disposeOnDone && g.gotReply && g.gotIdle)) := by
  obtain ⟨mid, mtype, mch, mpm, mps, mes⟩ := m
  cases mch with
  | shell =>
    simp only [handleFutureMsg]
    refine ⟨_, rfl, (checkDone_fields _).1, (checkDone_fields _).2.2.2.2.1,
      (checkDone_fields _).2.2.2.2.2, (checkDone_fields _).2.2.1,
      (checkDone_fields _).2.2.2.1, ?_⟩
    intro hexp hdc hdisp
    have hres := checkDone_invariant ({ f with gotReply := true }) f.gotReply f.gotIdle
      hexp hdc (by simpa using hdisp) (fun _ => rfl) (fun h => h)
    constructor
    · rw [hres.1, (checkDone_fields _).2.2.1, (checkDone_fields _).2.2.2.1]
    · rw [hres.2, (checkDone_fields _).2.2.2.2.2, (checkDone_fields _).2.2.1,
        (checkDone_fields _).2.2.2.1]
  | iopub => simp at hch
  | stdin => simp at hch
  | control => simp at hch

theorem handleMessage_unmatched_state (s : KernelState) (m : KMessage)
    (hmf : matchedFuture s m = none) :
    (handleMessage s m).1.futures = s.futures
    ∧ (handleMessage s m).1.kernelHooks = s.kernelHooks := by
  simp only [handleMessage, hmf]
  constructor
  · split
    · exact (updateStatus_futures _ _).1
    · rfl
  · split
    · exact (updateStatus_futures _ _).2.1
    · rfl

theorem matchedFuture_singleton_none (s : KernelState) (f : FutureState) (m : KMessage)
    (hfut : s.futures = [f])
    (h : m.parentMsgId ≠ some f.msgId ∨ m.parentSession ≠ some s.clientId
      ∨ f.isDisposed = true) :
    matchedFuture s m = none := by
  obtain ⟨mid, mtype, mch, mpm, mps, mes⟩ := m
  cases mpm with
  | none => rfl
  | some q =>
    cases mps with
    | none => rfl
    | some sess =>
      simp only at h
      simp only [matchedFuture, hfut]
      rcases h with h | h | h
      · have hnq : ¬(f.msgId == q) = true := by
          intro hq
          rw [beq_iff_eq] at hq
          exact h (by rw [hq])
        split
        · simp [List.find?, hnq]
        · rfl
      · have hns : ¬(sess == s.clientId) = true := by
          intro hq
          rw [beq_iff_eq] at hq
          exact h (by rw [hq])
        split
        · rename_i hc; exact absurd hc hns
        · rfl
      · split
        · simp [List.find?, h]
        · rfl

theorem handleMessage_future_step (s : KernelState) (f : FutureState) (m : KMessage)
    (hfut : s.futures = [f]) (hexp : f.expectReply = true)
    (hdc : f.doneCount = if f.gotReply && f.gotIdle then 1 else 0)
    (hdisp : f.isDisposed = (f.disposeOnDone && f.gotReply && f.gotIdle)) :
    ∃ g, (handleMessage s m).1.futures = [g] ∧ g.msgId = f.msgId
      ∧ g.expectReply = true ∧ g.disposeOnDone = f.disposeOnDone
      ∧ g.gotReply = (f.gotReply || isReplyFor f.msgId s.clientId m)
      ∧ g.gotIdle = (f.gotIdle || isIdleFor f.msgId s.clientId m)
      ∧ (g.doneCount = if g.gotReply && g.gotIdle then 1 else 0)
      ∧ (g.isDisposed = (g.disposeOnDone && g.gotReply && g.gotIdle)) := by
  obtain ⟨mid, mtype, mch, mpm, mps, mes⟩ := m
  by_cases hpm : mpm = some f.msgId
  · by_cases hps : mps = some s.clientId
    · cases hd : f.isDisposed with
      | false =>
        have hmf := matchedFuture_singleton s f ⟨mid, mtype, mch, mpm, mps, mes⟩
          hfut hd hpm hps
        have hfu := (handleMessage_matched s ⟨mid, mtype, mch, mpm, mps, mes⟩ f hmf).1
        subst hpm
        subst hps
        cases mch with
        | iopub =>
          obtain ⟨g, hg, hgmsg, hgexp, hgdd, hgR, hgI, hginv⟩ :=
            handleFutureMsg_iopub_future s f
              ⟨mid, mtype, Channel.iopub, some f.msgId, some s.clientId, mes⟩ rfl
          obtain ⟨hgdc, hgdisp⟩ := hginv hexp hdc hdisp
          refine ⟨g, ?_, hgmsg, by rw [hgexp]; exact hexp, hgdd, ?_, ?_, hgdc, hgdisp⟩
          · rw [hfu, hg, hfut, replaceFuture_singleton _ _ hgmsg hd]
          · rw [hgR]
            simp [isReplyFor]
          · rw [hgI]
            simp [isIdleFor]
        | shell =>
          obtain ⟨g, hg, hgmsg, hgexp, hgdd, hgR, hgI, hginv⟩ :=
            handleFutureMsg_shell_future s f
              ⟨mid, mtype, Channel.shell, some f.msgId, some s.clientId, mes⟩ rfl
          obtain ⟨hgdc, hgdisp⟩ := hginv hexp hdc hdisp
          refine ⟨g, ?_, hgmsg, by rw [hgexp]; exact hexp, hgdd, ?_, ?_, hgdc, hgdisp⟩
          · rw [hfu, hg, hfut, replaceFuture_singleton _ _ hgmsg hd]
          · rw [hgR]
            simp [isReplyFor]
          · rw [hgI]
            simp [isIdleFor]
        | stdin =>
          refine ⟨f, ?_, rfl, hexp, rfl, ?_, ?_, hdc, hdisp⟩
          · rw [hfu]
            exact hfut
          · simp [isReplyFor]
          · simp [isIdleFor]
        | control =>
          refine ⟨f, ?_, rfl, hexp, rfl, ?_, ?_, hdc, hdisp⟩
          · rw [hfu]
            exact hfut
          · simp [isReplyFor]
          · simp [isIdleFor]
      | true =>
        have hmf := matchedFuture_singleton_none s f ⟨mid, mtype, mch, mpm, mps, mes⟩
          hfut (Or.inr (Or.inr hd))
        have hfu := (handleMessage_unmatched_state s _ hmf).1
        rw [hd] at hdisp
        have hboth : f.gotReply = true ∧ f.gotIdle = true := by
          cases hR : f.gotReply
          · rw [hR] at hdisp
            simp at hdisp
          · cases hI : f.gotIdle
            · rw [hR, hI] at hdisp
              simp at hdisp
            · exact ⟨rfl, rfl⟩
        refine ⟨f, by rw [hfu, hfut], rfl, hexp, rfl, ?_, ?_, hdc, by rw [hd, hdisp]⟩
        · rw [hboth.1]
          simp
        · rw [hboth.2]
          simp
    · have hmf := matchedFuture_singleton_none s f ⟨mid, mtype, mch, mpm, mps, mes⟩
        hfut (Or.inr (Or.inl hps))
      have hfu := (handleMessage_unmatched_state s _ hmf).1
      refine ⟨f, by rw [hfu, hfut], rfl, hexp, rfl, ?_, ?_, hdc, hdisp⟩
      · simp [isReplyFor, hps]
      · simp [isIdleFor, hps]
  · have hmf := matchedFuture_singleton_none s f ⟨mid, mtype, mch, mpm, mps, mes⟩
      hfut (Or.inl hpm)
    have hfu := (handleMessage_unmatched_state s _ hmf).1
    refine ⟨f, by rw [hfu, hfut], rfl, hexp, rfl, ?_, ?_, hdc, hdisp⟩
    · simp [isReplyFor, hpm]
    · simp [isIdleFor, hpm]

theorem future_accounting (p cid : String) :
    ∀ (ms : List KMessage) (s : KernelState) (f : FutureState),
      s.clientId = cid → s.futures = [f] → f.msgId = p → f.expectReply = true →
      f.doneCount = (if f.gotReply && f.gotIdle then 1 else 0) →
      f.isDisposed = (f.disposeOnDone && f.gotReply && f.gotIdle) →
      ∃ g, (processMessages s ms).1.futures = [g] ∧ g.msgId = p
        ∧ g.gotReply = (f.gotReply || ms.any (isReplyFor p cid))
        ∧ g.gotIdle = (f.gotIdle || ms.any (isIdleFor p cid))
        ∧ g.doneCount = (if g.gotReply && g.gotIdle then 1 else 0) := by
  intro ms
  induction ms with
  | nil =>
    intro s f hcid hfut hmsg hexp hdc hdisp
    exact ⟨f, hfut, hmsg, by simp, by simp, hdc⟩
  | cons m rest ih =>
    intro s f hcid hfut hmsg hexp hdc hdisp
    obtain ⟨g, hfu, hgmsg, hgexp, hgdd, hgR, hgI, hgdc, hgdisp⟩ :=
      handleMessage_future_step s f m hfut hexp hdc hdisp
    obtain ⟨g2, hfu2, hg2msg, hg2R, hg2I, hg2dc⟩ :=
      ih (handleMessage s m).1 g (by rw [handleMessage_clientId, hcid]) hfu
        (by rw [hgmsg, hmsg]) hgexp hgdc hgdisp
    refine ⟨g2, ?_, hg2msg, ?_, ?_, hg2dc⟩
    · simp only [processMessages]
      exact hfu2
    · rw [hg2R, hgR, hmsg, hcid, List.any_cons]
      cases f.gotReply <;> cases isReplyFor p cid m <;> simp
    · rw [hg2I, hgI, hmsg, hcid, List.any_cons]
      cases f.gotIdle <;> cases isIdleFor p cid m <;> simp

/-- C2: for every submitted shell request (sent while the kernel is not
dead, with a fresh message id), after processing any list of inbound
messages the future's done promise has resolved exactly once if the list
contains both a matching shell reply and a matching idle-status iopub
message — in either order — and has not resolved otherwise. -/
theorem done_resolves_exactly_once (s0 : KernelState) (p : String) (dd : Bool)
    (ms : List KMessage) (s1 : KernelState) (evs : List Event)
    (hemp : s0.futures = [])
    (hsend : sendShellMessage s0 p true dd = Except.ok (s1, evs)) :
    (futureAt (processMessages s1 ms).1 p).map FutureState.doneCount
      = some (if ms.any (isReplyFor p s0.clientId) && ms.any (isIdleFor p s0.clientId)
              then 1 else 0) := by
  have hs1 : s1 = { s0 with futures := s0.futures ++ [newFuture p true dd] } := by
    unfold sendShellMessage at hsend
    split at hsend
    · cases hsend
    · cases hsend
      rfl
  have hfut : s1.futures = [newFuture p true dd] := by
    rw [hs1]
    simp [hemp]
  have hcid : s1.clientId = s0.clientId := by rw [hs1]
  obtain ⟨g, hfu, hgmsg, hgR, hgI, hgdc⟩ :=
    future_accounting p s0.clientId ms s1 (newFuture p true dd) hcid hfut rfl rfl
      (by simp [newFuture]) (by simp [newFuture])
  simp only [futureAt]
  rw [hfu]
  simp only [List.find?]
  have : (g.msgId == p) = true := by rw [hgmsg]; simp
  rw [this]
  simp only [Option.map_some']
  rw [hgdc, hgR, hgI]
  simp [newFuture]

/-- Witness for C2: the idle-status message arrives before the shell
reply, and done still resolves exactly once. -/
theorem done_resolves_exactly_once_witness :
    (futureAt (processMessages
        { wEmptyState with futures := [newFuture "p" true false] }
        [wIdle, wReply]).1 "p").map FutureState.doneCount = some 1 :=
  (done_resolves_exactly_once wEmptyState "p" false [wIdle, wReply]
    { wEmptyState with futures := [newFuture "p" true false] }
    [Event.anyMessage "p" Channel.shell Direction.send] rfl rfl).trans (by rfl)

theorem processMessages_append (s : KernelState) (l : List KMessage) (m : KMessage) :
    processMessages s (l ++ [m])
      = ((handleMessage (processMessages s l).1 m).1,
         (processMessages s l).2 ++ (handleMessage (processMessages s l).1 m).2) := by
  induction l generalizing s with
  | nil => simp [processMessages]
  | cons a rest ih =>
    simp only [List.cons_append, processMessages, List.append_eq]
    rw [ih]
    simp [List.append_assoc]

theorem step_reach (s0 : KernelState) (ms : List KMessage) (r : RunState)
    (tr : List Event) (c : SchedChoice) (h : Reach s0 ms (r, tr)) :
    Reach s0 ms ((step r c).1, tr ++ (step r c).2) := by
  obtain ⟨j, k, hkj, hj, hp, hq, hker, hany, hnon⟩ := h
  cases c with
  | arrive =>
    cases hpe : r.pending with
    | nil =>
      have hs : step r SchedChoice.arrive = (r, []) := by
        simp [step, hpe]
      rw [hs]
      exact ⟨j, k, hkj, hj, hp, hq, hker, by simpa using hany, by simpa using hnon⟩
    | cons m rest =>
      have hs : step r SchedChoice.arrive
          = ({ r with pending := rest, queue := r.queue ++ [m] },
             [Event.anyMessage m.msgId m.channel Direction.recv]) := by
        simp [step, hpe]
      rw [hs]
      have hdj : ms.drop j = m :: rest := by rw [← hp, hpe]
      have hjlt : j < ms.length := by
        by_contra hc
        push_neg at hc
        rw [List.drop_eq_nil_iff.mpr hc] at hdj
        cases hdj
      have htake : ms.take (j + 1) = ms.take j ++ [m] := by
        rw [List.take_add ms j 1, hdj]
        rfl
      have hdrop : ms.drop (j + 1) = rest := by
        rw [← List.drop_drop, hdj]
        rfl
      have hlenTake : (ms.take j).length = j := by
        rw [List.length_take]
        exact min_eq_left (le_of_lt hjlt)
      refine ⟨j + 1, k, le_trans hkj (Nat.le_succ j), hjlt, hdrop.symm ▸ rfl, ?_, hker,
        ?_, ?_⟩
      · show r.queue ++ [m] = (ms.take (j + 1)).drop k
        rw [htake, List.drop_append_of_le_length (by rw [hlenTake]; exact hkj), ← hq]
      · show (tr ++ [Event.anyMessage m.msgId m.channel Direction.recv]).filter isAnyRecv
          = (ms.take (j + 1)).map recvEvent
        rw [List.filter_append, hany, htake, List.map_append]
        rfl
      · show (tr ++ [Event.anyMessage m.msgId m.channel Direction.recv]).filter
            (fun e => !(isAnyRecv e)) = (processMessages s0 (ms.take k)).2
        rw [List.filter_append, hnon]
        simp [isAnyRecv]
  | process =>
    cases hqe : r.queue with
    | nil =>
      have hs : step r SchedChoice.process = (r, []) := by
        simp [step, hqe]
      rw [hs]
      exact ⟨j, k, hkj, hj, hp, hq, hker, by simpa using hany, by simpa using hnon⟩
    | cons m rest2 =>
      have hs : step r SchedChoice.process
          = ({ r with kernel := (handleMessage r.kernel m).1, queue := rest2 },
             (handleMessage r.kernel m).2) := by
        simp [step, hqe]
      rw [hs]
      have hdq : (ms.take j).drop k = m :: rest2 := by rw [← hq, hqe]
      have hklt : k < j := by
        by_contra hc
        push_neg at hc
        have hle : (ms.take j).length ≤ k := by
          rw [List.length_take]
          exact le_trans (min_le_left _ _) hc
        rw [List.drop_eq_nil_iff.mpr hle] at hdq
        cases hdq
      have h1 : (ms.drop k).take (j - k) = m :: rest2 := by
        rw [← List.drop_take, hdq]
      obtain ⟨jk, hjk⟩ : ∃ jk, j - k = jk + 1 := ⟨j - k - 1, by omega⟩
      have hdk : ∃ tail, ms.drop k = m :: tail := by
        cases hms : ms.drop k with
        | nil =>
          rw [hms] at h1
          simp at h1
        | cons a tail =>
          rw [hms, hjk, List.take_succ_cons] at h1
          have ham : a = m := ((List.cons.injEq _ _ _ _).mp h1).1
          exact ⟨tail, by rw [ham]⟩
      obtain ⟨tail, htail⟩ := hdk
      have htake : ms.take (k + 1) = ms.take k ++ [m] := by
        rw [List.take_add ms k 1, htail]
        rfl
      have hqueue : (ms.take j).drop (k + 1) = rest2 := by
        rw [← List.drop_drop, hdq]
        rfl
      have hevsAny : ∀ e ∈ (handleMessage r.kernel m).2, isAnyRecv e = false :=
        handleMessage_no_anyRecv r.kernel m
      refine ⟨j, k + 1, hklt, hj, hp, hqueue.symm ▸ rfl, ?_, ?_, ?_⟩
      · show (handleMessage r.kernel m).1 = (processMessages s0 (ms.take (k + 1))).1
        rw [htake, processMessages_append, hker]
      · show (tr ++ (handleMessage r.kernel m).2).filter isAnyRecv
          = (ms.take j).map recvEvent
        rw [List.filter_append, hany,
          List.filter_eq_nil_iff.mpr (fun e he => by simp [hevsAny e he])]
        simp
      · show (tr ++ (handleMessage r.kernel m).2).filter (fun e => !(isAnyRecv e))
          = (processMessages s0 (ms.take (k + 1))).2
        rw [List.filter_append, hnon,
          List.filter_eq_self.mpr (fun e he => by simp [hevsAny e he]),
          htake, processMessages_append, hker]

theorem run_reach (s0 : KernelState) (ms : List KMessage) :
    ∀ (cs : List SchedChoice) (r : RunState) (tr : List Event),
      Reach s0 ms (r, tr) → Reach s0 ms (run r tr cs) := by
  intro cs
  induction cs with
  | nil => intro r tr h; exact h
  | cons c rest ih =>
    intro r tr h
    exact ih _ _ (step_reach s0 ms r tr c h)

/-- C5: the anyMessage signal fires synchronously. For every scheduler
interleaving of arrivals and asynchronous processing, some prefix of j
messages has arrived and some prefix of k ≤ j of them has been handled:
the anyMessage part of the trace is exactly the arrived prefix in pure
wire arrival order, every message's anyMessage emission precedes its
asynchronous handling (handling never runs ahead of arrival), and the
non-anyMessage part of the trace is the serialized handling of the
processed prefix. Outbound sends emit anyMessage synchronously tagged
with direction send at send time. -/
theorem anyMessage_wire_order (s : KernelState) (ms : List KMessage)
    (cs : List SchedChoice) :
    (∃ j k, k ≤ j ∧ j ≤ ms.length
      ∧ (run ⟨s, ms, []⟩ [] cs).1.pending = ms.drop j
      ∧ (run ⟨s, ms, []⟩ [] cs).1.queue = (ms.take j).drop k
      ∧ (run ⟨s, ms, []⟩ [] cs).1.kernel = (processMessages s (ms.take k)).1
      ∧ (run ⟨s, ms, []⟩ [] cs).2.filter isAnyRecv = (ms.take j).map recvEvent
      ∧ (run ⟨s, ms, []⟩ [] cs).2.filter (fun e => !(isAnyRecv e))
          = (processMessages s (ms.take k)).2)
    ∧ (s.status ≠ Status.dead → ∀ (p : String) (er dd : Bool),
        sendShellMessage s p er dd
          = Except.ok ({ s with futures := s.futures ++ [newFuture p er dd] },
              [Event.anyMessage p Channel.shell Direction.send]))
    ∧ (s.status ≠ Status.dead → ∀ p : String,
        sendInputReply s p
          = Except.ok (s, [Event.anyMessage p Channel.stdin Direction.send])) := by
  refine ⟨?_, ?_, ?_⟩
  · have h0 : Reach s ms (⟨s, ms, []⟩, ([] : List Event)) :=
      ⟨0, 0, le_refl 0, Nat.zero_le _, rfl, rfl, rfl, rfl, rfl⟩
    exact run_reach s ms cs _ _ h0
  · intro hnd p er dd
    have hb : (s.status == Status.dead) = false := by simp [hnd]
    simp [sendShellMessage, hb]
  · intro hnd p
    have hb : (s.status == Status.dead) = false := by simp [hnd]
    simp [sendInputReply, hb]

/-- Witness for C5 at a concrete live connection: both outbound sends
emit anyMessage synchronously with direction send. -/
theorem anyMessage_wire_order_witness :
    sendShellMessage wEmptyState "q" true true
      = Except.ok ({ wEmptyState with futures := [newFuture "q" true true] },
          [Event.anyMessage "q" Channel.shell Direction.send])
    ∧ sendInputReply wEmptyState "r"
      = Except.ok (wEmptyState, [Event.anyMessage "r" Channel.stdin Direction.send]) :=
  ⟨(anyMessage_wire_order wEmptyState [] []).2.1 (by decide) "q" true true,
   (anyMessage_wire_order wEmptyState [] []).2.2 (by decide) "r"⟩

/-- C8: changeKernel disposes the prior Kernel Connection, constructs a
new distinct connection object (with a fresh local client identity, and a
new kernel id when started by name), and emits kernelChanged exactly once
with the old and new values, after the new connection reaches ready; the
Session's own identity (id, path, name, type) is unchanged across the
swap. -/
theorem changeKernel_swaps (s : SessionState) (nm fid : String)
    (hfresh : fid ≠ s.kernel.kernelId) (hgen : s.kernel.clientId < s.nextClientId) :
    (changeKernel s (ChangeKernelOptions.byName nm) fid).2
        = [SessionEvent.kernelReady s.nextClientId,
           SessionEvent.kernelChanged { s.kernel with isDisposed := true }
             (changeKernel s (ChangeKernelOptions.byName nm) fid).1.kernel]
    ∧ (changeKernel s (ChangeKernelOptions.byName nm) fid).1.kernel ≠ s.kernel
    ∧ (changeKernel s (ChangeKernelOptions.byName nm) fid).1.kernel.kernelId
        ≠ s.kernel.kernelId
    ∧ ({ s.kernel with isDisposed := true } : KernelConn).isDisposed = true
    ∧ (changeKernel s (ChangeKernelOptions.byName nm) fid).1.kernel.isDisposed = false
    ∧ (changeKernel s (ChangeKernelOptions.byName nm) fid).1.sid = s.sid
    ∧ (changeKernel s (ChangeKernelOptions.byName nm) fid).1.path = s.path
    ∧ (changeKernel s (ChangeKernelOptions.byName nm) fid).1.name = s.name
    ∧ (changeKernel s (ChangeKernelOptions.byName nm) fid).1.stype = s.stype := by
  refine ⟨rfl, ?_, ?_, rfl, rfl, rfl, rfl, rfl, rfl⟩
  · intro h
    have hc := congrArg KernelConn.clientId h
    simp [changeKernel] at hc
    omega
  · intro h
    exact hfresh (by simpa [changeKernel] using h)

/-- Witness for C8 at a concrete session: the swap to a kernel named
python3 with server-assigned id k1. -/
theorem changeKernel_swaps_witness :
    (changeKernel wSession (ChangeKernelOptions.byName "python3") "k1").2
        = [SessionEvent.kernelReady wSession.nextClientId,
           SessionEvent.kernelChanged { wSession.kernel with isDisposed := true }
             (changeKernel wSession (ChangeKernelOptions.byName "python3") "k1").1.kernel]
    ∧ (changeKernel wSession (ChangeKernelOptions.byName "python3") "k1").1.kernel
        ≠ wSession.kernel
    ∧ (changeKernel wSession (ChangeKernelOptions.byName "python3") "k1").1.kernel.kernelId
        ≠ wSession.kernel.kernelId
    ∧ ({ wSession.kernel with isDisposed := true } : KernelConn).isDisposed = true
    ∧ (changeKernel wSession (ChangeKernelOptions.byName "python3") "k1").1.kernel.isDisposed
        = false
    ∧ (changeKernel wSession (ChangeKernelOptions.byName "python3") "k1").1.sid
        = wSession.sid
    ∧ (changeKernel wSession (ChangeKernelOptions.byName "python3") "k1").1.path
        = wSession.path
    ∧ (changeKernel wSession (ChangeKernelOptions.byName "python3") "k1").1.name
        = wSession.name
    ∧ (changeKernel wSession (ChangeKernelOptions.byName "python3") "k1").1.stype
        = wSession.stype :=
  changeKernel_swaps wSession "python3" "k1" (by decide) (by decide)

end JLServices
